import Mathlib

/-!
# BMCC Commute Optimizer: the lateness computation and the roster loader

A shallow embedding of `src/mainwindow.cpp`.

* `QString` is a list of characters, `QTime` is Qt's millisecond-of-day counter
  (`-1` for the null time), C++ `int` values are unbounded integers (signed
  overflow, which C++ leaves undefined, is outside the model).
* The member fields written by `MainWindow::on_continueButton_clicked` form the
  record `Session`; the four reference tables form `RefData`; what the user typed
  and answered forms `Input`; what the handler shows forms `Outcome`.
* Loops with `break` become structural recursions over the list they scan.
* The Qt library calls the handler makes (`trimmed`, `split`, `toUpper`,
  `QTime::fromString`, `addSecs`, `secsTo`, ...) are modelled from the Qt
  documentation; letter case is handled on the ASCII range.
-/

namespace CommuteOptimizer

/-! ## QString -/

/-- A `QString`, as its sequence of characters. -/
abbrev QString := List Char

/-- Qt test `QChar::isSpace`: the ASCII blanks, NEL, NBSP and the Unicode separators. -/
def qIsSpace (c : Char) : Bool :=
  let n := c.toNat
  n == 0x20 || (0x09 ≤ n && n ≤ 0x0d) || n == 0x85 || n == 0xa0 || n == 0x1680 ||
    (0x2000 ≤ n && n ≤ 0x200a) || n == 0x2028 || n == 0x2029 || n == 0x202f ||
    n == 0x205f || n == 0x3000

/-- Removes trailing characters satisfying `p`. -/
def dropTrailing (p : Char → Bool) (s : QString) : QString :=
  ((s.reverse).dropWhile p).reverse

/-- Qt call `QString::trimmed`: whitespace removed from both ends. -/
def trimmed (s : QString) : QString :=
  dropTrailing qIsSpace (s.dropWhile qIsSpace)

/-- Qt call `QString::toUpper` (ASCII range). -/
def toUpper (s : QString) : QString := s.map Char.toUpper

/-- Case folding used by `QString::compare(_, Qt::CaseInsensitive)` (ASCII range). -/
def caseFold (s : QString) : QString := s.map Char.toLower

/-- Qt call `a.compare(b, Qt::CaseInsensitive) == 0`. -/
def compareCaseInsensitiveEq (a b : QString) : Bool := caseFold a == caseFold b

/-- Tests whether `p` is an initial segment of `s` (`QString::startsWith`). -/
def startsWith : QString → QString → Bool
  | _, [] => true
  | [], _ :: _ => false
  | c :: s, d :: p => c == d && startsWith s p

/-- Qt call `QString::contains(sub)`: `sub` occurs somewhere in `s`. -/
def qContains : QString → QString → Bool
  | [], sub => sub.isEmpty
  | c :: s, sub => startsWith (c :: s) sub || qContains s sub

/-- Core of `QString::split(sep)` for a non-empty separator: `skip` characters of a
separator just matched are still to be passed over, `cur` is the current piece,
reversed. -/
def splitAux (sep : QString) : Nat → QString → QString → List QString
  | _, [], cur => [cur.reverse]
  | skip + 1, _ :: s, cur => splitAux sep skip s cur
  | 0, c :: s, cur =>
      if startsWith (c :: s) sep then cur.reverse :: splitAux sep (sep.length - 1) s []
      else splitAux sep 0 s (c :: cur)

/-- Qt call `QString::split(sep)` with the default `Qt::KeepEmptyParts`, for a
non-empty separator: the pieces between the successive occurrences of `sep`. -/
def qSplit (sep s : QString) : List QString := splitAux sep 0 s []

/-- The separator between class name and class time: blank, en dash, blank. -/
def classSep : QString := " – ".toList

/-- PCRE class `\s` without the Unicode-properties option: the six ASCII blanks. -/
def reIsSpace (c : Char) : Bool :=
  let n := c.toNat
  n == 0x20 || (0x09 ≤ n && n ≤ 0x0d)

/-- Pieces of `s` between the matches of the regular expression `\s*-\s*`. `cur` is the
current piece, reversed. A match starts at the blanks before a hyphen and swallows
the blanks after it. -/
def reSplitAux : Nat → QString → QString → List QString
  | 0, _, cur => [cur.reverse]
  | _ + 1, [], cur => [cur.reverse]
  | fuel + 1, c :: s, cur =>
      if c == '-' then
        (cur.dropWhile reIsSpace).reverse :: reSplitAux fuel (s.dropWhile reIsSpace) []
      else reSplitAux fuel s (c :: cur)

/-- Qt call `QString::split(QRegularExpression("\\s*-\\s*"))`. -/
def reSplitDash (s : QString) : List QString := reSplitAux (s.length + 1) s []

/-- Qt call `QString::number(int)`: the decimal numeral. -/
def qNumber (n : Int) : QString := (toString n).toList

/-! ## QTime -/

/-- Milliseconds in a day. -/
def MSECS_PER_DAY : Int := 86400000

/-- Qt class `QTime`: milliseconds since midnight, `-1` for the null time. -/
structure QTime where
  mds : Int
  deriving DecidableEq, Repr

namespace QTime

/-- The null time `QTime()`. -/
def null : QTime := ⟨-1⟩

/-- Qt call `QTime::isValid`. -/
def isValid (t : QTime) : Bool := decide (-1 < t.mds) && decide (t.mds < MSECS_PER_DAY)

/-- The time `h:m:00.000`. -/
def ofHM (h m : Nat) : QTime := ⟨((h : Int) * 60 + m) * 60000⟩

/-- Qt call `QTime::addSecs`: wraps around midnight; a null time stays null. -/
def addSecs (t : QTime) (secs : Int) : QTime :=
  if t.isValid then ⟨(t.mds + secs * 1000) % MSECS_PER_DAY⟩ else null

/-- Qt call `a.secsTo(b)`: whole seconds of `b` minus whole seconds of `a`, zero if
either is null. -/
def secsTo (a b : QTime) : Int :=
  if a.isValid && b.isValid then b.mds / 1000 - a.mds / 1000 else 0

/-- Qt comparison `a > b` on times. -/
def gt (a b : QTime) : Bool := decide (b.mds < a.mds)

end QTime

/-! ## Clock texts: `QTime::fromString` and `QTime::toString` for the formats used -/

/-- Value of a decimal digit character. -/
def digitVal (c : Char) : Option Nat :=
  if c.isDigit then some (c.toNat - 48) else none

/-- The `AP` field: `AM` or `PM` in either letter case, nothing after it. `true` is PM. -/
def parseAmPm (s : QString) : Option Bool :=
  if caseFold s == ['a', 'm'] then some false
  else if caseFold s == ['p', 'm'] then some true
  else none

/-- The fields after the hour in `h:mm AP`: a colon, two minute digits, a blank and the
AM/PM marker. The hour of a 12-hour clock is 1 to 12, the minute 00 to 59. -/
def parseMinutesAmPm (h : Nat) : QString → QTime
  | ':' :: m1 :: m2 :: ' ' :: ap =>
      match digitVal m1, digitVal m2, parseAmPm ap with
      | some a, some b, some pm =>
          if 1 ≤ h ∧ h ≤ 12 ∧ a * 10 + b ≤ 59 then
            QTime.ofHM (h % 12 + (if pm then 12 else 0)) (a * 10 + b)
          else QTime.null
      | _, _, _ => QTime.null
  | _ => QTime.null

/-- Qt call `QTime::fromString(s, "h:mm AP")`: the hour field reads up to two digits.
The result is the null time when the text does not match. -/
def fromString_h_mm_AP : QString → QTime
  | d1 :: d2 :: rest =>
      match digitVal d1, digitVal d2 with
      | some a, some b => parseMinutesAmPm (a * 10 + b) rest
      | some a, none => parseMinutesAmPm a (d2 :: rest)
      | none, _ => QTime.null
  | _ => QTime.null

/-- Qt call `QTime::fromString(s, "hh:mm AP")`: the hour field is two digits. -/
def fromString_hh_mm_AP : QString → QTime
  | d1 :: d2 :: rest =>
      match digitVal d1, digitVal d2 with
      | some a, some b => parseMinutesAmPm (a * 10 + b) rest
      | _, _ => QTime.null
  | _ => QTime.null

/-- Two decimal digits of a number below 100. -/
def twoDigits (n : Nat) : QString := [Char.ofNat (48 + n / 10 % 10), Char.ofNat (48 + n % 10)]

/-- Qt call `t.toString("hh:mm AP")`; the empty text for a null time. -/
def toString_hh_mm_AP (t : QTime) : QString :=
  if t.isValid then
    let mins := (t.mds / 60000).toNat
    let h := mins / 60
    twoDigits (if h % 12 = 0 then 12 else h % 12) ++ [':'] ++ twoDigits (mins % 60) ++ [' '] ++
      (if h < 12 then ['A', 'M'] else ['P', 'M'])
  else []

/-! ## Data model -/

/-- A station and the lines serving it; the first line is its primary line. -/
structure Station where
  name : QString
  lines : List QString
  deriving DecidableEq, Repr

/-- One entry of the travel-time table. -/
structure TravelTime where
  stationName : QString
  lineName : QString
  minutes : Int
  deriving DecidableEq, Repr

/-- One entry of the service-alert table. -/
structure ServiceAlert where
  lineName : QString
  status : QString
  deriving DecidableEq, Repr

/-- One entry of the station-to-lines table. -/
structure StationLines where
  stationName : QString
  lines : List QString
  deriving DecidableEq, Repr

/-- Record `Student::ClassInfo`. -/
structure ClassInfo where
  className : QString
  classTime : QString
  professor : QString
  profEmail : QString
  deriving DecidableEq, Repr

/-- Record `Student`. -/
structure Student where
  name : QString
  email : QString
  id : QString
  classes : List ClassInfo
  deriving DecidableEq, Repr

/-- The reference tables, read-only after loading. -/
structure RefData where
  stationList : List Station
  travelTimes : List TravelTime
  serviceAlertsList : List ServiceAlert
  stationToLinesList : List StationLines
  deriving DecidableEq, Repr

/-- The member fields of `MainWindow` that a planning run reads and writes. -/
structure Session where
  currentStudent : Student
  selectedStation : QString
  selectedClassText : QString
  classStartTime : QTime
  mainLine : QString
  baseTravelMinutes : Int
  finalTravelMinutes : Int
  delayPenalty : Int
  arrivalTime : QTime
  willBeLate : Bool
  minutesLateOrEarly : Int
  profEmail : QString
  emailBodyText : QString
  deriving DecidableEq, Repr

/-- What the user supplies to one planning run: the text of the station field, the
current text of the class box, the time of the start-time editor, and the answer to
the late-notice question (asked only when the verdict is late). -/
structure Input where
  stationText : QString
  classText : QString
  startTime : QTime
  notifyProfessor : Bool
  deriving DecidableEq, Repr

/-- The widgets of the result page as one run sets them. -/
structure ResultView where
  stationResult : QString
  classResult : QString
  serviceStatus : QString
  arrivalTimeText : QString
  arrivalStatus : QString
  alternatives : List QString
  alternativeGroupVisible : Bool
  deriving DecidableEq, Repr

/-- What one planning run shows: a warning box (the run stops), the email preview
page with the draft, or the result page. -/
inductive Outcome where
  | warning (msg : QString)
  | emailPreview (body : QString)
  | resultPage (view : ResultView)
  deriving DecidableEq, Repr

/-! ## `MainWindow::on_continueButton_clicked` -/

/-- Step 4, the scan of `stationList`: at the first station named `sel` the scan stops,
and `mainLine` is assigned only if that station has a line; otherwise `mainLine`
keeps the value it had. -/
def findMainLine : List Station → QString → QString → QString
  | [], _, mainLine => mainLine
  | st :: rest, sel, mainLine =>
      if st.name = sel then
        match st.lines with
        | [] => mainLine
        | l :: _ => toUpper (trimmed l)
      else findMainLine rest sel mainLine

/-- Step 5, the scan of `travelTimes`; `minutes` starts at 30. -/
def findTravelMinutes : List TravelTime → QString → QString → Int → Int
  | [], _, _, minutes => minutes
  | t :: rest, station, line, minutes =>
      if t.stationName = station ∧ t.lineName = line then t.minutes
      else findTravelMinutes rest station line minutes

/-- The status that stands for undisturbed service. -/
def goodService : QString := "GOOD SERVICE".toList

/-- Step 6, the scan of `serviceAlertsList`; `status` starts at `"GOOD SERVICE"`. -/
def findStatus : List ServiceAlert → QString → QString → QString
  | [], _, status => status
  | a :: rest, line, status =>
      if a.lineName = line then a.status else findStatus rest line status

/-- Step 8, the scan of the student's classes: the first class whose name occurs in the
selected text gives the professor's name and email; `acc` holds the local `profName`
and the member `profEmail` as they are before the scan. -/
def findProfessor : List ClassInfo → QString → QString × QString → QString × QString
  | [], _, acc => acc
  | c :: rest, text, acc =>
      if qContains text c.className then (c.professor, c.profEmail)
      else findProfessor rest text acc

/-- Step 11, the scan of `stationToLinesList`; `allLines` starts empty. -/
def findStationLines : List StationLines → QString → List QString
  | [], _ => []
  | e :: rest, sel =>
      if compareCaseInsensitiveEq e.stationName sel then e.lines
      else findStationLines rest sel

/-- Step 11, the erase loop: the first element equal to `mainLine` is erased and the
loop stops. -/
def eraseMainLine : List QString → QString → List QString
  | [], _ => []
  | l :: rest, mainLine =>
      if l = mainLine then rest else l :: eraseMainLine rest mainLine

/-- Step 11, the text of one list item. -/
def alternativeItem (line : QString) : QString :=
  "Take ".toList ++ line ++ " Train instead".toList

/-- Step 11: the items put into the alternatives list and the visibility of its box. -/
def alternativeRoutes (ref : RefData) (selectedStation mainLine status : QString) :
    List QString × Bool :=
  if status ≠ goodService then
    let allLines := eraseMainLine (findStationLines ref.stationToLinesList selectedStation) mainLine
    (allLines.map alternativeItem, decide (allLines.length > 0))
  else ([], false)

/-- Step 9, the draft of the late notice. -/
def emailBody (profName : QString) (minutesLate : Int) (studentName : QString) : QString :=
  "Hello ".toList ++ profName ++
    ",\n\nI may arrive a few minutes late to class today due to subway delays.\nBased on my commute, I might be about ".toList ++
    qNumber minutesLate ++
    " minutes late.\n\nThank you for your understanding.\n\nBest regards,\n".toList ++
    studentName

/-- Step 10, the text of the arrival-status label. -/
def arrivalStatusText (willBeLate : Bool) (minutesLateOrEarly : Int) : QString :=
  if willBeLate then
    "You may be ".toList ++ qNumber minutesLateOrEarly ++ " minutes late.".toList
  else if minutesLateOrEarly > 0 then
    "You will be ".toList ++ qNumber minutesLateOrEarly ++ " minutes early.".toList
  else "You will arrive on time.".toList

/-- Steps 5 to 11 of the handler, entered once `selectedStation`, `selectedClassText`,
`classStartTime` and `mainLine` are set. -/
def projectArrival (ref : RefData) (inp : Input) (s : Session) : Outcome × Session :=
  -- 5. travel time
  let minutes := findTravelMinutes ref.travelTimes s.selectedStation s.mainLine 30
  let s := { s with baseTravelMinutes := minutes, finalTravelMinutes := minutes + s.delayPenalty }
  -- 6. service status
  let status := findStatus ref.serviceAlertsList s.mainLine goodService
  -- 7. arrival time
  let arrival := inp.startTime.addSecs (s.finalTravelMinutes * 60)
  let diff := Int.tdiv (s.classStartTime.secsTo arrival) 60
  let late := arrival.gt s.classStartTime
  let s := { s with arrivalTime := arrival, willBeLate := late,
                    minutesLateOrEarly := if late then diff else -diff }
  -- 8. professor
  let prof := findProfessor s.currentStudent.classes s.selectedClassText ([], s.profEmail)
  let s := { s with profEmail := prof.2 }
  -- 9. email body
  if s.willBeLate && inp.notifyProfessor then
    let body := emailBody prof.1 s.minutesLateOrEarly s.currentStudent.name
    (Outcome.emailPreview body, { s with emailBodyText := body })
  else
    let s := if s.willBeLate then s else { s with emailBodyText := [] }
    -- 10, 11. result page
    let alt := alternativeRoutes ref s.selectedStation s.mainLine status
    (Outcome.resultPage
      { stationResult := s.selectedStation
        classResult := s.selectedClassText
        serviceStatus := s.mainLine ++ " Line – ".toList ++ status
        arrivalTimeText := toString_hh_mm_AP s.arrivalTime
        arrivalStatus := arrivalStatusText s.willBeLate s.minutesLateOrEarly
        alternatives := alt.1
        alternativeGroupVisible := alt.2 }, s)

/-- Step 3, the start-time text cut out of the selected class text: the piece after the
first separator, up to the first hyphen, trimmed. `none` when a split yields too few
pieces. -/
def startTimeText (selectedClassText : QString) : Option QString :=
  let parts := qSplit classSep selectedClassText
  if parts.length < 2 then none
  else
    let fullTimeStr := trimmed (parts.getD 1 [])
    let timeParts := reSplitDash fullTimeStr
    if timeParts.length < 1 then none
    else some (trimmed (timeParts.headD []))

/-- Step 3, the two parsing attempts. -/
def parseStartTime (startTimeStr : QString) : QTime :=
  let t := fromString_h_mm_AP startTimeStr
  if !t.isValid then fromString_hh_mm_AP startTimeStr else t

/-- The run stopped at a warning box. -/
def Outcome.isWarning : Outcome → Bool
  | Outcome.warning _ => true
  | _ => false

/-- The handler `MainWindow::on_continueButton_clicked`: one planning run. Returns what is
shown and the member fields as the run leaves them. -/
def on_continueButton_clicked (ref : RefData) (inp : Input) (s : Session) : Outcome × Session :=
  -- 1. selected station
  let s := { s with selectedStation := trimmed inp.stationText }
  if s.selectedStation.isEmpty then
    (Outcome.warning "Please select a station.".toList, s)
  else
    -- 2. selected class
    let s := { s with selectedClassText := trimmed inp.classText }
    if s.selectedClassText.isEmpty then
      (Outcome.warning "Please select a class.".toList, s)
    else
      -- 3. class start time
      match startTimeText s.selectedClassText with
      | none => (Outcome.warning "Invalid class time format.".toList, s)
      | some startTimeStr =>
          let s := { s with classStartTime := parseStartTime startTimeStr }
          if !s.classStartTime.isValid then
            (Outcome.warning "Could not read class start time.".toList, s)
          else
            -- 4. main line of the selected station
            let s := { s with mainLine := findMainLine ref.stationList s.selectedStation s.mainLine }
            if s.mainLine.isEmpty then
              (Outcome.warning "Could not determine train line.".toList, s)
            else projectArrival ref inp s

/-- Method `MainWindow::loadClassesForStudent`: the texts put into the class box. -/
def loadClassesForStudent (currentStudent : Student) : List QString :=
  currentStudent.classes.map fun c => c.className ++ classSep ++ c.classTime

/-! ## `MainWindow::loadStudents` -/

/-- Qt class `QJsonValue`. The payload of a number is never inspected by the loader;
an integer stands for it. -/
inductive QJsonValue where
  | undefined
  | null
  | bool (b : Bool)
  | number (n : Int)
  | string (s : QString)
  | array (items : List QJsonValue)
  | object (members : List (QString × QJsonValue))

namespace QJsonValue

/-- Qt call `QJsonValue::toObject`: the empty object unless the value is an object. -/
def toObject : QJsonValue → List (QString × QJsonValue)
  | object members => members
  | _ => []

/-- Qt call `QJsonValue::toArray`: the empty array unless the value is an array. -/
def toArray : QJsonValue → List QJsonValue
  | array items => items
  | _ => []

/-- Qt call `QJsonValue::toString`: the empty text unless the value is a string. -/
def toQString : QJsonValue → QString
  | string s => s
  | _ => []

end QJsonValue

/-- Qt call `QJsonObject::contains(key)`. -/
def jsonContains (obj : List (QString × QJsonValue)) (key : String) : Bool :=
  obj.any fun m => m.1 == key.toList

/-- Qt call `obj[key]`: the member's value, `Undefined` when there is none. -/
def jsonValue (obj : List (QString × QJsonValue)) (key : String) : QJsonValue :=
  match obj.find? fun m => m.1 == key.toList with
  | some m => m.2
  | none => QJsonValue.undefined

/-- Text thrown for student `i` lacking a required field
(`QString("...entry #%1").arg(i)`). -/
def missingStudentFields (i : Nat) : QString :=
  "Missing required student fields in entry #".toList ++ qNumber i

/-- Text thrown for class `j` of student `i` lacking a required field
(`QString("...student #%1, class #%2").arg(i).arg(j)`). -/
def missingClassFields (i j : Nat) : QString :=
  "Missing class fields for student #".toList ++ qNumber i ++ ", class #".toList ++ qNumber j

/-- The inner loop of `loadStudents` over `classesArr`, from index `j` on, for student
`i`; `classes` is `st.classes` so far. Throws at the first class lacking a field. -/
def loadClassesLoop (i : Nat) : List QJsonValue → Nat → List ClassInfo → Except QString (List ClassInfo)
  | [], _, classes => Except.ok classes
  | v :: rest, j, classes =>
      let cObj := v.toObject
      if !jsonContains cObj "class_name" || !jsonContains cObj "class_time" ||
          !jsonContains cObj "professor" || !jsonContains cObj "prof_email" then
        Except.error (missingClassFields i j)
      else
        let info : ClassInfo :=
          { className := (jsonValue cObj "class_name").toQString
            classTime := (jsonValue cObj "class_time").toQString
            professor := (jsonValue cObj "professor").toQString
            profEmail := (jsonValue cObj "prof_email").toQString }
        loadClassesLoop i rest (j + 1) (classes ++ [info])

/-- The outer loop of `loadStudents` over `arr`, from index `i` on. Returns the member
`studentList` as the loop leaves it and the text thrown, if any: a student is pushed
only after all its classes were read. -/
def loadStudentsLoop : List QJsonValue → Nat → List Student → List Student × Option QString
  | [], _, studentList => (studentList, none)
  | v :: rest, i, studentList =>
      let obj := v.toObject
      if !jsonContains obj "name" || !jsonContains obj "email" || !jsonContains obj "cuny_id" then
        (studentList, some (missingStudentFields i))
      else
        match loadClassesLoop i (jsonValue obj "classes").toArray 0 [] with
        | Except.error e => (studentList, some e)
        | Except.ok classes =>
            loadStudentsLoop rest (i + 1)
              (studentList ++ [{ name := (jsonValue obj "name").toQString
                                 email := (jsonValue obj "email").toQString
                                 id := (jsonValue obj "cuny_id").toQString
                                 classes := classes }])

/-- What `loadStudents` finds when it reads `students.json`. -/
inductive RosterFile where
  | unreadable
  | malformed (errorString : QString)
  | document (root : QJsonValue)

/-- The text of the error box shown by the `catch` block. -/
def studentLoadError (what : QString) : QString :=
  "An error occurred while loading students.json:\n".toList ++ what

/-- Method `MainWindow::loadStudents`. Returns the member `studentList` afterwards and
the text of the error box, if one is shown. The list is cleared only once the root is
known to be an array. -/
def loadStudents (file : RosterFile) (studentList : List Student) : List Student × Option QString :=
  match file with
  | RosterFile.unreadable =>
      (studentList, some (studentLoadError "Could not open students.json".toList))
  | RosterFile.malformed errorString =>
      (studentList, some (studentLoadError ("JSON parsing error in students.json: ".toList ++ errorString)))
  | RosterFile.document (QJsonValue.array arr) =>
      let r := loadStudentsLoop arr 0 []
      (r.1, r.2.map studentLoadError)
  | RosterFile.document _ =>
      (studentList, some (studentLoadError "The root of students.json must be a JSON array.".toList))

/-! ## Reference definitions, written from the specification

These restate in list vocabulary what the specification says; the theorems below
compare them with the loops above. -/

/-- A class record lacks one of its four required fields. -/
def classRecordDefective (v : QJsonValue) : Bool :=
  !(jsonContains v.toObject "class_name" && jsonContains v.toObject "class_time" &&
    jsonContains v.toObject "professor" && jsonContains v.toObject "prof_email")

/-- A student record lacks `name`, `email` or `cuny_id`, or one of its class records is
defective. -/
def studentRecordDefective (v : QJsonValue) : Bool :=
  !(jsonContains v.toObject "name" && jsonContains v.toObject "email" &&
    jsonContains v.toObject "cuny_id") ||
  (jsonValue v.toObject "classes").toArray.any classRecordDefective

/-- The class built from a class record. -/
def classOfRecord (v : QJsonValue) : ClassInfo :=
  { className := (jsonValue v.toObject "class_name").toQString
    classTime := (jsonValue v.toObject "class_time").toQString
    professor := (jsonValue v.toObject "professor").toQString
    profEmail := (jsonValue v.toObject "prof_email").toQString }

/-- The student built from a student record. -/
def studentOfRecord (v : QJsonValue) : Student :=
  { name := (jsonValue v.toObject "name").toQString
    email := (jsonValue v.toObject "email").toQString
    id := (jsonValue v.toObject "cuny_id").toQString
    classes := (jsonValue v.toObject "classes").toArray.map classOfRecord }

/-! ## Auxiliary definitions for the statements -/

/-- The member fields after steps 1 to 4, when none of them stops the run. -/
def afterResolution (ref : RefData) (inp : Input) (s : Session) (t : QTime) : Session :=
  { s with selectedStation := trimmed inp.stationText
           selectedClassText := trimmed inp.classText
           classStartTime := t
           mainLine := findMainLine ref.stationList (trimmed inp.stationText) s.mainLine }

/-- The member fields as one planning run leaves them. -/
def sessionAfter (ref : RefData) (inp : Input) (s : Session) : Session :=
  (on_continueButton_clicked ref inp s).2

/-- What one planning run shows. -/
def shown (ref : RefData) (inp : Input) (s : Session) : Outcome :=
  (on_continueButton_clicked ref inp s).1

/-- Travel-time lookup as the specification words it: the minutes of the first entry
that matches station and line exactly, 30 when there is none. -/
def specBaseMinutes (table : List TravelTime) (station line : QString) : Int :=
  match table.find? (fun e => decide (e.stationName = station ∧ e.lineName = line)) with
  | some e => e.minutes
  | none => 30

/-- Service-status lookup as the specification words it: the status of the first alert
for the line, `"GOOD SERVICE"` when there is none. -/
def specStatus (alerts : List ServiceAlert) (line : QString) : QString :=
  match alerts.find? (fun a => decide (a.lineName = line)) with
  | some a => a.status
  | none => "GOOD SERVICE".toList

/-- Line list of a station as the specification words it: the lines of the first
station-to-lines entry whose name equals the station case-insensitively, no lines
when there is none. -/
def specStationLines (table : List StationLines) (station : QString) : List QString :=
  match table.find? (fun e => compareCaseInsensitiveEq e.stationName station) with
  | some e => e.lines
  | none => []

/-! ## Sample data -/

/-- A student with one class, Math from 10:00 AM. -/
def sampleStudent : Student :=
  { name := "Ann".toList, email := "ann@example.edu".toList, id := "1001".toList
    classes := [{ className := "Math".toList, classTime := "10:00 AM - 11:00 AM".toList
                  professor := "Dr. Poe".toList, profEmail := "poe@example.edu".toList }] }

/-- The session of `sampleStudent` before any planning run, with no delay penalty. -/
def freshSession : Session :=
  { currentStudent := sampleStudent, selectedStation := [], selectedClassText := []
    classStartTime := QTime.null, mainLine := [], baseTravelMinutes := 0
    finalTravelMinutes := 0, delayPenalty := 0, arrivalTime := QTime.null
    willBeLate := false, minutesLateOrEarly := 0, profEmail := [], emailBodyText := [] }

/-- Reference data with one station, no travel-time entry and no alert. -/
def timesSquareRef : RefData :=
  { stationList := [{ name := "Times Sq-42 St".toList
                      lines := ["N".toList, "Q".toList, "R".toList] }]
    travelTimes := [], serviceAlertsList := [], stationToLinesList := [] }

/-- The class text the box shows for the class of `sampleStudent`. -/
def mathClassText : QString := "Math – 10:00 AM - 11:00 AM".toList

/-- The time `h:m:s.000`. -/
def timeHMS (h m s : Nat) : QTime := ⟨(((h : Int) * 60 + m) * 60 + s) * 1000⟩

/-- Reference data with one station whose travel time on the N line is 30 minutes. -/
def lateNightRef : RefData :=
  { stationList := [{ name := "Canal St".toList, lines := ["n".toList, "Q".toList] }]
    travelTimes := [{ stationName := "Canal St".toList, lineName := "Q".toList, minutes := 12 },
                    { stationName := "Canal St".toList, lineName := "N".toList, minutes := 25 },
                    { stationName := "Canal St".toList, lineName := "N".toList, minutes := 40 }]
    serviceAlertsList := [], stationToLinesList := [] }

/-- Steps 1 to 3 accept the input: the station text and the class text are not blank and
the start time cut out of the class text parses. -/
def selectionAccepted (inp : Input) : Bool :=
  !(trimmed inp.stationText).isEmpty && !(trimmed inp.classText).isEmpty &&
    (match startTimeText (trimmed inp.classText) with
      | some txt => (parseStartTime txt).isValid
      | none => false)

/-- The input of a run for `sampleStudent` from Times Square, starting at 09:30. -/
def timesSquareInput : Input :=
  { stationText := "Times Sq-42 St".toList, classText := mathClassText
    startTime := QTime.ofHM 9 30, notifyProfessor := false }

/-- Reference data in which the first line of the station is written with blanks
around it. -/
def paddedLineRef : RefData :=
  { stationList := [{ name := "Canal St".toList, lines := [" n ".toList, "Q".toList] }]
    travelTimes := [], serviceAlertsList := [], stationToLinesList := [] }

/-- Reference data of the delayed-line scenario: the N line has delays and the station
is served by N, Q, R and W. -/
def delayedRef : RefData :=
  { stationList := [{ name := "Times Sq-42 St".toList
                      lines := ["N".toList, "Q".toList, "R".toList] }]
    travelTimes := []
    serviceAlertsList := [{ lineName := "N".toList, status := "DELAYS".toList }]
    stationToLinesList := [{ stationName := "TIMES SQ-42 ST".toList
                             lines := ["N".toList, "Q".toList, "R".toList, "W".toList] }] }

/-- As `delayedRef`, but the line list of the station names the N line twice. -/
def repeatedLineRef : RefData :=
  { delayedRef with
    stationToLinesList := [{ stationName := "Times Sq-42 St".toList
                             lines := ["N".toList, "Q".toList, "N".toList] }] }

/-- The result page of the run `timesSquareInput` over `delayedRef`. -/
def delayedView : ResultView :=
  { stationResult := "Times Sq-42 St".toList
    classResult := mathClassText
    serviceStatus := "N Line – DELAYS".toList
    arrivalTimeText := "10:00 AM".toList
    arrivalStatus := "You will arrive on time.".toList
    alternatives := ["Take Q Train instead".toList, "Take R Train instead".toList,
                     "Take W Train instead".toList]
    alternativeGroupVisible := true }

/-- A well-formed student record with one class. -/
def rosterRecord (name id : String) : QJsonValue :=
  QJsonValue.object
    [("name".toList, QJsonValue.string name.toList),
     ("email".toList, QJsonValue.string "s@example.edu".toList),
     ("cuny_id".toList, QJsonValue.string id.toList),
     ("classes".toList, QJsonValue.array
        [QJsonValue.object
          [("class_name".toList, QJsonValue.string "Math".toList),
           ("class_time".toList, QJsonValue.string "10:00 AM - 11:00 AM".toList),
           ("professor".toList, QJsonValue.string "Dr. Poe".toList),
           ("prof_email".toList, QJsonValue.string "poe@example.edu".toList)]])]

/-- A roster whose record #2 has no `cuny_id`. -/
def brokenRoster : List QJsonValue :=
  [rosterRecord "Ann" "1001", rosterRecord "Bo" "1002",
   QJsonValue.object [("name".toList, QJsonValue.string "Cy".toList),
                      ("email".toList, QJsonValue.string "cy@example.edu".toList)],
   rosterRecord "Di" "1004"]

/-- A roster without defects. -/
def soundRoster : List QJsonValue := [rosterRecord "Ann" "1001", rosterRecord "Bo" "1002"]

/-- The text of a 12-hour clock time: the hour `h` (1 to 12) written with two digits when
`padded` or when it has two digits, with one digit otherwise, then `:mm AM` or
`:mm PM`. -/
def clockText (padded : Bool) (h m : Nat) (pm : Bool) : QString :=
  (if padded || decide (10 ≤ h) then twoDigits h else [Char.ofNat (48 + h % 10)]) ++ [':'] ++
    twoDigits m ++ [' '] ++ (if pm then ['P', 'M'] else ['A', 'M'])

/-- The time of day that the clock time `h:m AM/PM` denotes. -/
def clockTime (h m : Nat) (pm : Bool) : QTime :=
  QTime.ofHM (h % 12 + (if pm then 12 else 0)) m

/-- A student whose class name contains the separator. -/
def labStudent : Student :=
  { sampleStudent with
    classes := [{ className := "Physics – Lab".toList, classTime := "9:05 AM - 10:10 AM".toList
                  professor := "Dr. Roe".toList, profEmail := "roe@example.edu".toList }] }

/-- The session left by the run `timesSquareInput` from the fresh session. -/
def sessionAfterFirstRun : Session :=
  sessionAfter timesSquareRef timesSquareInput freshSession

/-- The same selection with the start time 09:30:30. -/
def halfMinuteInput : Input := { timesSquareInput with startTime := timeHMS 9 30 30 }

/-- The same selection with the start time 09:35. -/
def lateInput : Input := { timesSquareInput with startTime := QTime.ofHM 9 35 }

/-- A run shortly before midnight for a class at 11:55 PM. -/
def midnightInput : Input :=
  { stationText := "Times Sq-42 St".toList, classText := "Lab – 11:55 PM - 11:59 PM".toList
    startTime := QTime.ofHM 23 50, notifyProfessor := false }

/-- A selection of Canal St, typed with blanks around it. -/
def canalInput : Input := { timesSquareInput with stationText := " Canal St ".toList }

/-- A selection of a station that is not in the station list. -/
def nowhereInput : Input := { timesSquareInput with stationText := "Nowhere".toList }

/-- A blank station field. -/
def blankStationInput : Input := { timesSquareInput with stationText := "  ".toList }

/-- A class text without the separator. -/
def noSeparatorInput : Input := { timesSquareInput with classText := "Math 10:00 AM".toList }

/-- The class text that `loadClassesForStudent` builds for `labStudent`. -/
def labClassText : QString := (loadClassesForStudent labStudent).headD []

/-- The selection of the class of `labStudent`. -/
def labInput : Input := { timesSquareInput with classText := labClassText }

/-- A class text with a non-padded morning hour. -/
def morningInput : Input :=
  { timesSquareInput with classText := "Math – 9:05 AM - 10:10 AM".toList }

/-- A class text with a zero-padded evening hour. -/
def eveningInput : Input :=
  { timesSquareInput with classText := "Math – 09:05 PM - 10:10 PM".toList }

/-- As `timesSquareRef`, with a second station whose first line is a blank. -/
def blankLineRef : RefData :=
  { timesSquareRef with
    stationList := timesSquareRef.stationList ++
      [{ name := "Canal St".toList, lines := [" ".toList, "Q".toList] }] }

/-- A blank class box. -/
def blankClassInput : Input := { timesSquareInput with classText := "   ".toList }

/-- A class text whose start time is not a clock time. -/
def unreadableTimeInput : Input :=
  { timesSquareInput with classText := "Math – noon - 1:00 PM".toList }

/-- A class whose name is blank, as `loadClassesForStudent` shows it. -/
def namelessStudent : Student :=
  { sampleStudent with
    classes := [{ className := [], classTime := "9:05 AM - 10:10 AM".toList
                  professor := "Dr. Roe".toList, profEmail := "roe@example.edu".toList }] }

/-- The class text that `loadClassesForStudent` builds for `namelessStudent`. -/
def namelessClassText : QString := (loadClassesForStudent namelessStudent).headD []

/-- The selection of the class of `namelessStudent`. -/
def namelessInput : Input := { timesSquareInput with classText := namelessClassText }

/-! ## The roster loader stops at the first defective record -/

theorem loadClassesLoop_ok (i : Nat) (cs : List QJsonValue) :
    ∀ (j : Nat) (classes : List ClassInfo), cs.any classRecordDefective = false →
      loadClassesLoop i cs j classes = Except.ok (classes ++ cs.map classOfRecord) := by
  induction cs with
  | nil => intro j classes _; simp [loadClassesLoop]
  | cons v rest ih =>
      intro j classes h
      simp only [List.any_cons, Bool.or_eq_false_iff] at h
      obtain ⟨hv, hrest⟩ := h
      have hv' : (jsonContains v.toObject "class_name" && jsonContains v.toObject "class_time" &&
          jsonContains v.toObject "professor" && jsonContains v.toObject "prof_email") = true := by
        simpa [classRecordDefective] using hv
      simp only [Bool.and_eq_true] at hv'
      obtain ⟨⟨⟨h1, h2⟩, h3⟩, h4⟩ := hv'
      simp [loadClassesLoop, h1, h2, h3, h4, ih _ _ hrest, classOfRecord]

theorem loadClassesLoop_error (i : Nat) (cs : List QJsonValue) :
    ∀ (j : Nat) (classes : List ClassInfo), cs.any classRecordDefective = true →
      ∃ k, loadClassesLoop i cs j classes = Except.error (missingClassFields i k) := by
  induction cs with
  | nil => intro j classes h; simp at h
  | cons v rest ih =>
      intro j classes h
      by_cases hv : classRecordDefective v = true
      · refine ⟨j, ?_⟩
        have hv' : (!jsonContains v.toObject "class_name" || !jsonContains v.toObject "class_time" ||
            !jsonContains v.toObject "professor" || !jsonContains v.toObject "prof_email") = true := by
          simpa [classRecordDefective, Bool.not_and] using hv
        simp only [loadClassesLoop, hv', if_true]
      · have hrest : rest.any classRecordDefective = true := by
          simpa [List.any_cons, hv] using h
        have hv' : (!jsonContains v.toObject "class_name" || !jsonContains v.toObject "class_time" ||
            !jsonContains v.toObject "professor" || !jsonContains v.toObject "prof_email") = false := by
          simpa [classRecordDefective, Bool.not_and] using hv
        obtain ⟨k, hk⟩ := ih (j + 1) (classes ++ [classOfRecord v]) hrest
        refine ⟨k, ?_⟩
        simp only [loadClassesLoop, hv']
        simpa [classOfRecord] using hk

theorem loadStudentsLoop_sound (v : QJsonValue) (rest : List QJsonValue) (i : Nat)
    (studentList : List Student) (h : studentRecordDefective v = false) :
    loadStudentsLoop (v :: rest) i studentList =
      loadStudentsLoop rest (i + 1) (studentList ++ [studentOfRecord v]) := by
  simp only [studentRecordDefective, Bool.or_eq_false_iff, Bool.not_eq_false_eq_eq_true,
    Bool.and_eq_true, Bool.not_eq_eq_eq_not, Bool.not_false] at h
  obtain ⟨⟨⟨h1, h2⟩, h3⟩, hc⟩ := h
  simp [loadStudentsLoop, h1, h2, h3, loadClassesLoop_ok i _ 0 [] hc, studentOfRecord]

theorem loadStudentsLoop_stop (v : QJsonValue) (rest : List QJsonValue) (i : Nat)
    (studentList : List Student) (h : studentRecordDefective v = true) :
    ∃ msg, loadStudentsLoop (v :: rest) i studentList = (studentList, some msg) ∧
      (msg = missingStudentFields i ∨ ∃ j, msg = missingClassFields i j) := by
  by_cases hf : (!jsonContains v.toObject "name" || !jsonContains v.toObject "email" ||
      !jsonContains v.toObject "cuny_id") = true
  · exact ⟨missingStudentFields i, by simp only [loadStudentsLoop, hf, if_true], Or.inl rfl⟩
  · have hf' : (!jsonContains v.toObject "name" || !jsonContains v.toObject "email" ||
        !jsonContains v.toObject "cuny_id") = false := by simpa using hf
    have hc : (jsonValue v.toObject "classes").toArray.any classRecordDefective = true := by
      have h' := h
      simp only [studentRecordDefective, Bool.or_eq_true] at h'
      rcases h' with h' | h'
      · exfalso
        simp only [Bool.or_eq_false_iff, Bool.not_eq_false_eq_eq_true,
          Bool.not_eq_eq_eq_not, Bool.not_false] at hf'
        simp [hf'.1.1, hf'.1.2, hf'.2] at h'
      · exact h'
    obtain ⟨k, hk⟩ := loadClassesLoop_error i _ 0 [] hc
    refine ⟨missingClassFields i k, ?_, Or.inr ⟨k, rfl⟩⟩
    simp only [loadStudentsLoop, hf', hk]
    simp

theorem loadStudentsLoop_all (arr : List QJsonValue) :
    ∀ (i : Nat) (studentList : List Student),
      (∀ v ∈ arr, studentRecordDefective v = false) →
      loadStudentsLoop arr i studentList = (studentList ++ arr.map studentOfRecord, none) := by
  induction arr with
  | nil => intro i studentList _; simp [loadStudentsLoop]
  | cons v rest ih =>
      intro i studentList h
      rw [loadStudentsLoop_sound v rest i studentList (h v (List.mem_cons_self _ _)),
        ih _ _ (fun w hw => h w (List.mem_cons_of_mem _ hw))]
      simp

theorem loadStudentsLoop_first (arr : List QJsonValue) :
    ∀ (i k : Nat) (studentList : List Student) (hk : k < arr.length),
      studentRecordDefective (arr.get ⟨k, hk⟩) = true →
      (∀ m (hm : m < arr.length), m < k → studentRecordDefective (arr.get ⟨m, hm⟩) = false) →
      ∃ msg, loadStudentsLoop arr i studentList =
          (studentList ++ (arr.take k).map studentOfRecord, some msg) ∧
        (msg = missingStudentFields (i + k) ∨ ∃ j, msg = missingClassFields (i + k) j) := by
  induction arr with
  | nil => intro i k studentList hk; simp at hk
  | cons v rest ih =>
      intro i k studentList hk hdef hfirst
      cases k with
      | zero =>
          obtain ⟨msg, h1, h2⟩ := loadStudentsLoop_stop v rest i studentList (by simpa using hdef)
          exact ⟨msg, by simpa using h1, by simpa using h2⟩
      | succ k =>
          have hv : studentRecordDefective v = false := by
            simpa using hfirst 0 (by simp) (Nat.succ_pos k)
          have hk' : k < rest.length := by simpa using hk
          obtain ⟨msg, h1, h2⟩ := ih (i + 1) k (studentList ++ [studentOfRecord v]) hk'
            (by simpa using hdef)
            (fun m hm hmk => by simpa using hfirst (m + 1) (by simpa using hm) (by omega))
          refine ⟨msg, ?_, ?_⟩
          · rw [loadStudentsLoop_sound v rest i studentList hv, h1]
            simp
          · have e : i + 1 + k = i + (k + 1) := by omega
            simpa [e] using h2

/-- Claim C8. For a roster document whose root is an array: when record `i` is the first
defective student record, `loadStudents` shows an error text that carries the index `i`
and leaves exactly the students built from records `0..i-1`, in order, whatever the
list held before; when no record is defective it shows no error and leaves one student
per record, in document order. -/
theorem loadStudents_stops_at_first_defective (arr : List QJsonValue) (prior : List Student) :
    (∀ (i : Nat) (hi : i < arr.length),
        studentRecordDefective (arr.get ⟨i, hi⟩) = true →
        (∀ m (hm : m < arr.length), m < i → studentRecordDefective (arr.get ⟨m, hm⟩) = false) →
        ∃ what, loadStudents (RosterFile.document (QJsonValue.array arr)) prior =
            ((arr.take i).map studentOfRecord, some (studentLoadError what)) ∧
          (what = "Missing required student fields in entry #".toList ++ qNumber i ∨
            ∃ j : Nat, what = "Missing class fields for student #".toList ++ qNumber i ++
              ", class #".toList ++ qNumber j)) ∧
    ((∀ v ∈ arr, studentRecordDefective v = false) →
        loadStudents (RosterFile.document (QJsonValue.array arr)) prior =
          (arr.map studentOfRecord, none)) := by
  constructor
  · intro i hi hdef hfirst
    obtain ⟨msg, h1, h2⟩ := loadStudentsLoop_first arr 0 i [] hi hdef hfirst
    refine ⟨msg, ?_, ?_⟩
    · simp [loadStudents, h1]
    · simpa [missingStudentFields, missingClassFields] using h2
  · intro h
    simp [loadStudents, loadStudentsLoop_all arr 0 [] h]

/-- Two loads of claim C8: a roster whose record #2 lacks `cuny_id` leaves the students
of records 0 and 1 and shows a text naming entry #2; a sound roster loads whole. -/
theorem loadStudents_stops_at_first_defective_witness :
    (∃ what, loadStudents (RosterFile.document (QJsonValue.array brokenRoster)) [] =
        ((brokenRoster.take 2).map studentOfRecord, some (studentLoadError what)) ∧
      (what = "Missing required student fields in entry #".toList ++ qNumber 2 ∨
        ∃ j : Nat, what = "Missing class fields for student #".toList ++ qNumber 2 ++
          ", class #".toList ++ qNumber j)) ∧
    loadStudents (RosterFile.document (QJsonValue.array soundRoster)) [] =
      (soundRoster.map studentOfRecord, none) :=
  ⟨(loadStudents_stops_at_first_defective brokenRoster []).1 2 (by decide) (by decide)
      (fun m _ hm => by
        have hcases : m = 0 ∨ m = 1 := by omega
        rcases hcases with h | h <;> subst h <;> rfl),
    (loadStudents_stops_at_first_defective soundRoster []).2 (by decide)⟩

/-! ## The paths through the handler -/

theorem projectArrival_not_warning (ref : RefData) (inp : Input) (s : Session) :
    (projectArrival ref inp s).1.isWarning = false := by
  unfold projectArrival
  simp only
  split <;> rfl

theorem handler_cases (ref : RefData) (inp : Input) (s : Session) :
    (trimmed inp.stationText = [] ∧ on_continueButton_clicked ref inp s =
        (Outcome.warning "Please select a station.".toList,
          { s with selectedStation := trimmed inp.stationText })) ∨
    (trimmed inp.stationText ≠ [] ∧ trimmed inp.classText = [] ∧
      on_continueButton_clicked ref inp s =
        (Outcome.warning "Please select a class.".toList,
          { s with selectedStation := trimmed inp.stationText
                   selectedClassText := trimmed inp.classText })) ∨
    (trimmed inp.stationText ≠ [] ∧ trimmed inp.classText ≠ [] ∧
      startTimeText (trimmed inp.classText) = none ∧
      on_continueButton_clicked ref inp s =
        (Outcome.warning "Invalid class time format.".toList,
          { s with selectedStation := trimmed inp.stationText
                   selectedClassText := trimmed inp.classText })) ∨
    (∃ txt, trimmed inp.stationText ≠ [] ∧ trimmed inp.classText ≠ [] ∧
      startTimeText (trimmed inp.classText) = some txt ∧
      (parseStartTime txt).isValid = false ∧
      on_continueButton_clicked ref inp s =
        (Outcome.warning "Could not read class start time.".toList,
          { s with selectedStation := trimmed inp.stationText
                   selectedClassText := trimmed inp.classText
                   classStartTime := parseStartTime txt })) ∨
    (∃ txt, trimmed inp.stationText ≠ [] ∧ trimmed inp.classText ≠ [] ∧
      startTimeText (trimmed inp.classText) = some txt ∧
      (parseStartTime txt).isValid = true ∧
      findMainLine ref.stationList (trimmed inp.stationText) s.mainLine = [] ∧
      on_continueButton_clicked ref inp s =
        (Outcome.warning "Could not determine train line.".toList,
          afterResolution ref inp s (parseStartTime txt))) ∨
    (∃ txt, trimmed inp.stationText ≠ [] ∧ trimmed inp.classText ≠ [] ∧
      startTimeText (trimmed inp.classText) = some txt ∧
      (parseStartTime txt).isValid = true ∧
      findMainLine ref.stationList (trimmed inp.stationText) s.mainLine ≠ [] ∧
      on_continueButton_clicked ref inp s =
        projectArrival ref inp (afterResolution ref inp s (parseStartTime txt))) := by
  unfold on_continueButton_clicked afterResolution
  simp only [List.isEmpty_iff]
  by_cases h1 : trimmed inp.stationText = []
  · left; simp [h1]
  · right
    by_cases h2 : trimmed inp.classText = []
    · left; simp [h1, h2]
    · right
      cases h3 : startTimeText (trimmed inp.classText) with
      | none => left; simp [h1, h2]
      | some txt =>
          right
          by_cases h4 : (parseStartTime txt).isValid = true
          · right
            by_cases h5 : findMainLine ref.stationList (trimmed inp.stationText) s.mainLine = []
            · left; exact ⟨txt, h1, h2, rfl, h4, h5, by simp [h1, h2, h4, h5]⟩
            · right; exact ⟨txt, h1, h2, rfl, h4, h5, by simp [h1, h2, h4, h5]⟩
          · left
            have h4' : (parseStartTime txt).isValid = false := by simpa using h4
            exact ⟨txt, h1, h2, rfl, h4', by simp [h1, h2, h4']⟩

theorem projectArrival_session (ref : RefData) (inp : Input) (s : Session) :
    let s' := (projectArrival ref inp s).2
    s'.currentStudent = s.currentStudent ∧ s'.selectedStation = s.selectedStation ∧
    s'.selectedClassText = s.selectedClassText ∧ s'.classStartTime = s.classStartTime ∧
    s'.mainLine = s.mainLine ∧ s'.delayPenalty = s.delayPenalty ∧
    s'.baseTravelMinutes = findTravelMinutes ref.travelTimes s.selectedStation s.mainLine 30 ∧
    s'.finalTravelMinutes = s'.baseTravelMinutes + s.delayPenalty ∧
    s'.arrivalTime = inp.startTime.addSecs (s'.finalTravelMinutes * 60) ∧
    s'.willBeLate = s'.arrivalTime.gt s.classStartTime ∧
    s'.minutesLateOrEarly =
      (if s'.willBeLate then Int.tdiv (s.classStartTime.secsTo s'.arrivalTime) 60
       else -Int.tdiv (s.classStartTime.secsTo s'.arrivalTime) 60) := by
  unfold projectArrival
  simp only
  split
  · simp
  · split <;> simp

/-- A run that does not stop with a warning went through steps 5 to 11 on the fields
set by steps 1 to 4. -/
theorem handler_passes (ref : RefData) (inp : Input) (s : Session)
    (h : (on_continueButton_clicked ref inp s).1.isWarning = false) :
    ∃ txt, trimmed inp.stationText ≠ [] ∧ trimmed inp.classText ≠ [] ∧
      startTimeText (trimmed inp.classText) = some txt ∧
      (parseStartTime txt).isValid = true ∧
      findMainLine ref.stationList (trimmed inp.stationText) s.mainLine ≠ [] ∧
      on_continueButton_clicked ref inp s =
        projectArrival ref inp (afterResolution ref inp s (parseStartTime txt)) := by
  rcases handler_cases ref inp s with h1 | h1 | h1 | h1 | h1 | h1
  · rw [h1.2] at h; simp [Outcome.isWarning] at h
  · rw [h1.2.2] at h; simp [Outcome.isWarning] at h
  · rw [h1.2.2.2] at h; simp [Outcome.isWarning] at h
  · obtain ⟨txt, _, _, _, _, e⟩ := h1
    rw [e] at h; simp [Outcome.isWarning] at h
  · obtain ⟨txt, _, _, _, _, _, e⟩ := h1
    rw [e] at h; simp [Outcome.isWarning] at h
  · exact h1

theorem findTravelMinutes_eq_find (tt : List TravelTime) (station line : QString) (d : Int) :
    findTravelMinutes tt station line d =
      match tt.find? (fun e => decide (e.stationName = station ∧ e.lineName = line)) with
      | some e => e.minutes
      | none => d := by
  induction tt with
  | nil => simp [findTravelMinutes]
  | cons t rest ih =>
      by_cases h : t.stationName = station ∧ t.lineName = line
      · simp [findTravelMinutes, List.find?_cons, h]
      · have hd : decide (t.stationName = station ∧ t.lineName = line) = false := by simpa using h
        rw [List.find?_cons, hd]
        simp only [findTravelMinutes, h, if_false, ih]

/-- Claim C5. In every run that gets past validation, the base travel minutes are the
minutes of the first travel-time entry whose station name and line name equal the
selected station and the primary line exactly, and are 30 when there is no such entry;
the total travel minutes are the base minutes plus the delay penalty of the session. -/
theorem travel_minutes_first_match_or_30 (ref : RefData) (inp : Input) (s : Session)
    (h : (shown ref inp s).isWarning = false) :
    (sessionAfter ref inp s).selectedStation = trimmed inp.stationText ∧
    (sessionAfter ref inp s).baseTravelMinutes =
      specBaseMinutes ref.travelTimes (sessionAfter ref inp s).selectedStation
        (sessionAfter ref inp s).mainLine ∧
    ((∀ e ∈ ref.travelTimes, ¬(e.stationName = (sessionAfter ref inp s).selectedStation ∧
        e.lineName = (sessionAfter ref inp s).mainLine)) →
      (sessionAfter ref inp s).baseTravelMinutes = 30) ∧
    (sessionAfter ref inp s).finalTravelMinutes =
      (sessionAfter ref inp s).baseTravelMinutes + s.delayPenalty := by
  unfold shown at h
  unfold sessionAfter
  obtain ⟨txt, _, _, _, _, _, e⟩ := handler_passes ref inp s h
  have hp := projectArrival_session ref inp (afterResolution ref inp s (parseStartTime txt))
  simp only at hp
  obtain ⟨_, hst, _, _, hml, _, hbase, hfin, _⟩ := hp
  simp only [e]
  have hb : (projectArrival ref inp (afterResolution ref inp s (parseStartTime txt))).2.baseTravelMinutes =
      specBaseMinutes ref.travelTimes
        (projectArrival ref inp (afterResolution ref inp s (parseStartTime txt))).2.selectedStation
        (projectArrival ref inp (afterResolution ref inp s (parseStartTime txt))).2.mainLine := by
    rw [hbase, hst, hml, findTravelMinutes_eq_find]
    rfl
  refine ⟨by rw [hst]; rfl, hb, ?_, by rw [hfin]; rfl⟩
  intro hnone
  rw [hb]
  unfold specBaseMinutes
  rw [List.find?_eq_none.2]
  intro e he
  simpa using hnone e he

/-! ## The lateness verdict -/

theorem QTime.isValid_iff (t : QTime) : t.isValid = true ↔ 0 ≤ t.mds ∧ t.mds < 86400000 := by
  simp only [QTime.isValid, MSECS_PER_DAY, Bool.and_eq_true, decide_eq_true_eq]
  omega

theorem parseMinutesAmPm_whole_minute (h : Nat) (s : QString) :
    (parseMinutesAmPm h s).isValid = true → (parseMinutesAmPm h s).mds % 60000 = 0 := by
  unfold parseMinutesAmPm
  split
  · split
    · split
      · intro _
        simp only [QTime.ofHM]
        omega
      · intro hv; simp [QTime.isValid, QTime.null] at hv
    · intro hv; simp [QTime.isValid, QTime.null] at hv
  · intro hv; simp [QTime.isValid, QTime.null] at hv

theorem fromString_h_mm_AP_whole_minute (s : QString) :
    (fromString_h_mm_AP s).isValid = true → (fromString_h_mm_AP s).mds % 60000 = 0 := by
  unfold fromString_h_mm_AP
  split
  · split
    · exact parseMinutesAmPm_whole_minute _ _
    · exact parseMinutesAmPm_whole_minute _ _
    · intro hv; simp [QTime.isValid, QTime.null] at hv
  · intro hv; simp [QTime.isValid, QTime.null] at hv

theorem fromString_hh_mm_AP_whole_minute (s : QString) :
    (fromString_hh_mm_AP s).isValid = true → (fromString_hh_mm_AP s).mds % 60000 = 0 := by
  unfold fromString_hh_mm_AP
  split
  · split
    · exact parseMinutesAmPm_whole_minute _ _
    · intro hv; simp [QTime.isValid, QTime.null] at hv
  · intro hv; simp [QTime.isValid, QTime.null] at hv

theorem parseStartTime_whole_minute (s : QString) :
    (parseStartTime s).isValid = true → (parseStartTime s).mds % 60000 = 0 := by
  unfold parseStartTime
  simp only
  split
  · exact fromString_hh_mm_AP_whole_minute s
  · exact fromString_h_mm_AP_whole_minute s

theorem ofHM_isValid (h m : Nat) (hh : h < 24) (hm : m < 60) :
    (QTime.ofHM h m).isValid = true := by
  rw [QTime.isValid_iff]
  simp only [QTime.ofHM]
  omega

theorem parseMinutesAmPm_null_or_valid (h : Nat) (s : QString) :
    parseMinutesAmPm h s = QTime.null ∨ (parseMinutesAmPm h s).isValid = true := by
  unfold parseMinutesAmPm
  split
  · split
    · rename_i a b pm _ _ _
      split
      · rename_i hc
        right
        apply ofHM_isValid
        · cases pm <;> simp <;> omega
        · omega
      · left; rfl
    · left; rfl
  · left; rfl

theorem fromString_hh_mm_AP_null_or_valid (s : QString) :
    fromString_hh_mm_AP s = QTime.null ∨ (fromString_hh_mm_AP s).isValid = true := by
  unfold fromString_hh_mm_AP
  split
  · split
    · exact parseMinutesAmPm_null_or_valid _ _
    · left; rfl
  · left; rfl

/-- A start-time text that does not parse gives the null time. -/
theorem parseStartTime_null_of_invalid (s : QString)
    (h : (parseStartTime s).isValid = false) : parseStartTime s = QTime.null := by
  unfold parseStartTime at h ⊢
  simp only at h ⊢
  by_cases h1 : (!(fromString_h_mm_AP s).isValid) = true
  · rw [if_pos h1] at h ⊢
    rcases fromString_hh_mm_AP_null_or_valid s with e | e
    · exact e
    · rw [e] at h
      exact absurd h (by decide)
  · rw [if_neg h1] at h
    simp only [Bool.not_eq_true', Bool.not_eq_false] at h1
    rw [h1] at h
    exact absurd h (by decide)

/-- What step 7 stores, in a run that gets past validation with a valid start time:
the class start is a valid whole minute, the arrival is the start time plus the travel
time modulo one day, and verdict and delta follow the comparison of the two. -/
theorem handler_lateness (ref : RefData) (inp : Input) (s : Session)
    (hpass : (on_continueButton_clicked ref inp s).1.isWarning = false)
    (hstart : inp.startTime.isValid = true) :
    let s' := (on_continueButton_clicked ref inp s).2
    (0 ≤ s'.classStartTime.mds ∧ s'.classStartTime.mds < 86400000 ∧
      s'.classStartTime.mds % 60000 = 0) ∧
    s'.arrivalTime.mds = (inp.startTime.mds + s'.finalTravelMinutes * 60 * 1000) % 86400000 ∧
    s'.willBeLate = decide (s'.classStartTime.mds < s'.arrivalTime.mds) ∧
    s'.minutesLateOrEarly =
      (if s'.classStartTime.mds < s'.arrivalTime.mds then
        (s'.arrivalTime.mds / 1000 - s'.classStartTime.mds / 1000) / 60
       else (s'.classStartTime.mds / 1000 - s'.arrivalTime.mds / 1000) / 60) := by
  obtain ⟨txt, _, _, _, hvalid, _, e⟩ := handler_passes ref inp s hpass
  have hp := projectArrival_session ref inp (afterResolution ref inp s (parseStartTime txt))
  simp only at hp
  obtain ⟨_, _, _, hcls, _, _, _, _, harr, hlate, hmin⟩ := hp
  have hc : (afterResolution ref inp s (parseStartTime txt)).classStartTime = parseStartTime txt := rfl
  rw [hc] at hcls hlate hmin
  simp only [e]
  generalize (projectArrival ref inp (afterResolution ref inp s (parseStartTime txt))).2 = s' at *
  have hwm := parseStartTime_whole_minute txt hvalid
  have hcv := (QTime.isValid_iff _).1 hvalid
  have hsv := (QTime.isValid_iff _).1 hstart
  have hamds : s'.arrivalTime.mds =
      (inp.startTime.mds + s'.finalTravelMinutes * 60 * 1000) % 86400000 := by
    rw [harr]
    simp [QTime.addSecs, hstart, MSECS_PER_DAY]
  have hav : s'.arrivalTime.isValid = true := by
    rw [QTime.isValid_iff, hamds]
    omega
  have harange := (QTime.isValid_iff _).1 hav
  have hsecs : (parseStartTime txt).secsTo s'.arrivalTime =
      s'.arrivalTime.mds / 1000 - (parseStartTime txt).mds / 1000 := by
    simp [QTime.secsTo, hvalid, hav]
  rw [hcls]
  refine ⟨⟨hcv.1, hcv.2, hwm⟩, hamds, ?_, ?_⟩
  · rw [hlate]; rfl
  · rw [hmin, hlate, hsecs]
    by_cases hlt : (parseStartTime txt).mds < s'.arrivalTime.mds
    · have hg : s'.arrivalTime.gt (parseStartTime txt) = true := by simp [QTime.gt, hlt]
      simp only [hg, if_true, hlt]
      exact Int.tdiv_eq_ediv (by omega) (by decide)
    · have hg : s'.arrivalTime.gt (parseStartTime txt) = false := by simp [QTime.gt, hlt]
      simp only [hg, hlt, if_false, Bool.false_eq_true]
      rw [← Int.neg_tdiv, Int.tdiv_eq_ediv (by omega) (by decide)]
      congr 1
      omega

/-- Claim C1, as stated, fails: starting at 09:30:30 for the class at 10:00 with 30 travel
minutes, the arrival 10:00:30 is after the class start, the verdict is late, and the
stored delta is 0, not a positive number of minutes. -/
theorem late_delta_zero_counterexample :
    (sessionAfter timesSquareRef halfMinuteInput freshSession).classStartTime = QTime.ofHM 10 0 ∧
    (sessionAfter timesSquareRef halfMinuteInput freshSession).arrivalTime = timeHMS 10 0 30 ∧
    (sessionAfter timesSquareRef halfMinuteInput freshSession).willBeLate = true ∧
    (sessionAfter timesSquareRef halfMinuteInput freshSession).minutesLateOrEarly = 0 := by
  decide

/-- Claim C1, amended. In every run that gets past validation with a valid start time,
the verdict is late exactly when the arrival is strictly after the class start. When
late, the stored delta is the count of whole minutes from class start to arrival
(seconds dropped): never negative, and positive once the arrival is a full minute
after the class start. When not late, the stored delta is the count of whole minutes
from arrival to class start: never negative, positive once the arrival is a full
minute before the class start, zero when the arrival is the class start. When the
start time is a whole minute, the delta is the exact distance in minutes, so it is
positive when late and when early. -/
theorem lateness_verdict_and_delta (ref : RefData) (inp : Input) (s : Session)
    (hpass : (shown ref inp s).isWarning = false)
    (hstart : inp.startTime.isValid = true) :
    ((sessionAfter ref inp s).willBeLate = true ↔
      (sessionAfter ref inp s).classStartTime.mds < (sessionAfter ref inp s).arrivalTime.mds) ∧
    ((sessionAfter ref inp s).willBeLate = true →
      (sessionAfter ref inp s).minutesLateOrEarly =
        ((sessionAfter ref inp s).arrivalTime.mds / 1000 -
          (sessionAfter ref inp s).classStartTime.mds / 1000) / 60 ∧
      0 ≤ (sessionAfter ref inp s).minutesLateOrEarly ∧
      ((sessionAfter ref inp s).classStartTime.mds + 60000 ≤
          (sessionAfter ref inp s).arrivalTime.mds →
        0 < (sessionAfter ref inp s).minutesLateOrEarly)) ∧
    ((sessionAfter ref inp s).willBeLate = false →
      (sessionAfter ref inp s).minutesLateOrEarly =
        ((sessionAfter ref inp s).classStartTime.mds / 1000 -
          (sessionAfter ref inp s).arrivalTime.mds / 1000) / 60 ∧
      0 ≤ (sessionAfter ref inp s).minutesLateOrEarly ∧
      ((sessionAfter ref inp s).arrivalTime.mds + 60000 ≤
          (sessionAfter ref inp s).classStartTime.mds →
        0 < (sessionAfter ref inp s).minutesLateOrEarly) ∧
      ((sessionAfter ref inp s).arrivalTime = (sessionAfter ref inp s).classStartTime →
        (sessionAfter ref inp s).minutesLateOrEarly = 0)) ∧
    (inp.startTime.mds % 60000 = 0 →
      ((sessionAfter ref inp s).willBeLate = true →
        0 < (sessionAfter ref inp s).minutesLateOrEarly ∧
        (sessionAfter ref inp s).minutesLateOrEarly * 60000 =
          (sessionAfter ref inp s).arrivalTime.mds - (sessionAfter ref inp s).classStartTime.mds) ∧
      ((sessionAfter ref inp s).willBeLate = false →
        (sessionAfter ref inp s).minutesLateOrEarly * 60000 =
          (sessionAfter ref inp s).classStartTime.mds - (sessionAfter ref inp s).arrivalTime.mds ∧
        ((sessionAfter ref inp s).arrivalTime.mds < (sessionAfter ref inp s).classStartTime.mds →
          0 < (sessionAfter ref inp s).minutesLateOrEarly))) := by
  have hl := handler_lateness ref inp s hpass hstart
  simp only at hl
  unfold sessionAfter
  generalize (on_continueButton_clicked ref inp s).2 = s' at hl ⊢
  obtain ⟨⟨hc0, hc1, hcm⟩, harr, hlate, hmin⟩ := hl
  have hsv := (QTime.isValid_iff _).1 hstart
  have ha : 0 ≤ s'.arrivalTime.mds ∧ s'.arrivalTime.mds < 86400000 := by
    rw [harr]; omega
  refine ⟨by rw [hlate]; simp, ?_, ?_, ?_⟩
  · intro hw
    have hlt : s'.classStartTime.mds < s'.arrivalTime.mds := by
      rw [hlate] at hw; simpa using hw
    rw [if_pos hlt] at hmin
    refine ⟨hmin, ?_, ?_⟩
    · rw [hmin]; omega
    · intro h60; rw [hmin]; omega
  · intro hw
    have hlt : ¬ s'.classStartTime.mds < s'.arrivalTime.mds := by
      rw [hlate] at hw; simpa using hw
    rw [if_neg hlt] at hmin
    refine ⟨hmin, ?_, ?_, ?_⟩
    · rw [hmin]; omega
    · intro h60; rw [hmin]; omega
    · intro heq; rw [hmin, heq]; omega
  · intro hwhole
    have hawhole : s'.arrivalTime.mds % 60000 = 0 := by
      rw [harr]; omega
    constructor
    · intro hw
      have hlt : s'.classStartTime.mds < s'.arrivalTime.mds := by
        rw [hlate] at hw; simpa using hw
      rw [if_pos hlt] at hmin
      rw [hmin]
      omega
    · intro hw
      have hlt : ¬ s'.classStartTime.mds < s'.arrivalTime.mds := by
        rw [hlate] at hw; simpa using hw
      rw [if_neg hlt] at hmin
      rw [hmin]
      omega

/-- The run of claim C1 at 09:35 for the class at 10:00: late by 5 minutes. -/
theorem lateness_verdict_and_delta_witness :
    (sessionAfter timesSquareRef lateInput freshSession).willBeLate = true ∧
    (sessionAfter timesSquareRef lateInput freshSession).minutesLateOrEarly =
      ((sessionAfter timesSquareRef lateInput freshSession).arrivalTime.mds / 1000 -
        (sessionAfter timesSquareRef lateInput freshSession).classStartTime.mds / 1000) / 60 ∧
    0 < (sessionAfter timesSquareRef lateInput freshSession).minutesLateOrEarly ∧
    (sessionAfter timesSquareRef lateInput freshSession).minutesLateOrEarly = 5 :=
  ⟨by decide,
    ((lateness_verdict_and_delta timesSquareRef lateInput freshSession (by decide)
      (by decide)).2.1 (by decide)).1,
    (((lateness_verdict_and_delta timesSquareRef lateInput freshSession (by decide)
      (by decide)).2.2.2 (by decide)).1 (by decide)).1,
    by decide⟩

/-- Claim C10. When the start time is not after the class start, the travel time is
between 1 and 1439 minutes and start plus travel reaches or passes midnight, the
stored arrival is the wrapped time of day, it is earlier than the class start, the
verdict is not late, and the stored delta is the count of minutes from the wrapped
arrival to the class start. -/
theorem midnight_wrap_reports_not_late (ref : RefData) (inp : Input) (s : Session)
    (hpass : (shown ref inp s).isWarning = false)
    (hstart : inp.startTime.isValid = true)
    (ht : 0 < (sessionAfter ref inp s).finalTravelMinutes ∧
      (sessionAfter ref inp s).finalTravelMinutes < 1440)
    (hle : inp.startTime.mds ≤ (sessionAfter ref inp s).classStartTime.mds)
    (hwrap : 86400000 ≤ inp.startTime.mds + (sessionAfter ref inp s).finalTravelMinutes * 60000) :
    (sessionAfter ref inp s).arrivalTime.mds =
      inp.startTime.mds + (sessionAfter ref inp s).finalTravelMinutes * 60000 - 86400000 ∧
    (sessionAfter ref inp s).arrivalTime.mds < (sessionAfter ref inp s).classStartTime.mds ∧
    (sessionAfter ref inp s).willBeLate = false ∧
    (sessionAfter ref inp s).minutesLateOrEarly =
      ((sessionAfter ref inp s).classStartTime.mds / 1000 -
        (sessionAfter ref inp s).arrivalTime.mds / 1000) / 60 ∧
    (inp.startTime.mds % 60000 = 0 →
      (sessionAfter ref inp s).minutesLateOrEarly * 60000 =
        (sessionAfter ref inp s).classStartTime.mds - (sessionAfter ref inp s).arrivalTime.mds) := by
  have hl := handler_lateness ref inp s hpass hstart
  simp only at hl
  unfold sessionAfter at ht hle hwrap ⊢
  generalize (on_continueButton_clicked ref inp s).2 = s' at hl ht hle hwrap ⊢
  obtain ⟨⟨hc0, hc1, hcm⟩, harr, hlate, hmin⟩ := hl
  have hsv := (QTime.isValid_iff _).1 hstart
  have ha : s'.arrivalTime.mds = inp.startTime.mds + s'.finalTravelMinutes * 60000 - 86400000 := by
    rw [harr]; omega
  have hlt : ¬ s'.classStartTime.mds < s'.arrivalTime.mds := by omega
  rw [if_neg hlt] at hmin
  refine ⟨ha, by omega, by rw [hlate]; simpa using hlt, hmin, ?_⟩
  intro hwhole
  rw [hmin]
  omega

/-- The run of claim C10 at 23:50 with 30 travel minutes for the class at 23:55: arrival
00:20, not late, 1415 minutes early. -/
theorem midnight_wrap_reports_not_late_witness :
    (sessionAfter timesSquareRef midnightInput freshSession).finalTravelMinutes = 30 ∧
    (sessionAfter timesSquareRef midnightInput freshSession).classStartTime = QTime.ofHM 23 55 ∧
    (sessionAfter timesSquareRef midnightInput freshSession).arrivalTime = QTime.ofHM 0 20 ∧
    (sessionAfter timesSquareRef midnightInput freshSession).arrivalTime.mds <
      (sessionAfter timesSquareRef midnightInput freshSession).classStartTime.mds ∧
    (sessionAfter timesSquareRef midnightInput freshSession).willBeLate = false ∧
    (sessionAfter timesSquareRef midnightInput freshSession).minutesLateOrEarly = 1415 :=
  ⟨by decide, by decide, by decide,
    (midnight_wrap_reports_not_late timesSquareRef midnightInput freshSession
      (by decide) (by decide) (by decide) (by decide) (by decide)).2.1,
    (midnight_wrap_reports_not_late timesSquareRef midnightInput freshSession
      (by decide) (by decide) (by decide) (by decide) (by decide)).2.2.1,
    by decide⟩

/-! ## Primary-line resolution and what a stopped run leaves behind -/

/-- The run of claim C5 from Canal St: the first entry for the N line gives 25 base
minutes, the delay penalty 4 gives 29 in total; without an entry the base is 30. -/
theorem travel_minutes_first_match_or_30_witness :
    (sessionAfter lateNightRef canalInput { freshSession with delayPenalty := 4 }).selectedStation =
      "Canal St".toList ∧
    (sessionAfter lateNightRef canalInput { freshSession with delayPenalty := 4 }).mainLine =
      "N".toList ∧
    (sessionAfter lateNightRef canalInput { freshSession with delayPenalty := 4 }).baseTravelMinutes =
      25 ∧
    (sessionAfter lateNightRef canalInput { freshSession with delayPenalty := 4 }).finalTravelMinutes =
      (sessionAfter lateNightRef canalInput { freshSession with delayPenalty := 4 }).baseTravelMinutes
        + 4 ∧
    (sessionAfter timesSquareRef timesSquareInput freshSession).baseTravelMinutes = 30 :=
  ⟨(travel_minutes_first_match_or_30 lateNightRef canalInput
      { freshSession with delayPenalty := 4 } (by decide)).1,
    by decide, by decide,
    (travel_minutes_first_match_or_30 lateNightRef canalInput
      { freshSession with delayPenalty := 4 } (by decide)).2.2.2,
    (travel_minutes_first_match_or_30 timesSquareRef timesSquareInput freshSession
      (by decide)).2.2.1 (by decide)⟩

/-- Claim C2, the failing run. After a successful run has left the primary line `N` in
the session, selecting a station that is not in the station list does not stop with
the resolution warning: the run goes on to the result page with the stale line `N`.
From a fresh session the same selection does stop with the warning. -/
theorem stale_main_line_defeats_resolution_error :
    sessionAfterFirstRun.mainLine = "N".toList ∧
    timesSquareRef.stationList.all (fun st => decide (st.name ≠ nowhereInput.stationText)) = true ∧
    (shown timesSquareRef nowhereInput sessionAfterFirstRun).isWarning = false ∧
    (sessionAfter timesSquareRef nowhereInput sessionAfterFirstRun).mainLine = "N".toList ∧
    shown timesSquareRef nowhereInput freshSession =
      Outcome.warning "Could not determine train line.".toList := by
  decide

/-- Claim C3, as stated, fails: each stop has already overwritten the fields assigned by
the steps performed before it. After a successful run, a blank station field leaves the
selected station empty; a blank class box leaves the selected class text empty; a
start time that does not parse leaves the null time as class start time; a station
whose first line is blank leaves the primary line empty. -/
theorem stopped_run_overwrites_fields_counterexample :
    (shown timesSquareRef blankStationInput sessionAfterFirstRun =
        Outcome.warning "Please select a station.".toList ∧
      sessionAfterFirstRun.selectedStation = "Times Sq-42 St".toList ∧
      (sessionAfter timesSquareRef blankStationInput sessionAfterFirstRun).selectedStation = []) ∧
    (shown timesSquareRef blankClassInput sessionAfterFirstRun =
        Outcome.warning "Please select a class.".toList ∧
      sessionAfterFirstRun.selectedClassText = mathClassText ∧
      (sessionAfter timesSquareRef blankClassInput sessionAfterFirstRun).selectedClassText = []) ∧
    (shown timesSquareRef unreadableTimeInput sessionAfterFirstRun =
        Outcome.warning "Could not read class start time.".toList ∧
      sessionAfterFirstRun.classStartTime = QTime.ofHM 10 0 ∧
      (sessionAfter timesSquareRef unreadableTimeInput sessionAfterFirstRun).classStartTime =
        QTime.null) ∧
    (shown blankLineRef canalInput (sessionAfter blankLineRef timesSquareInput freshSession) =
        Outcome.warning "Could not determine train line.".toList ∧
      (sessionAfter blankLineRef timesSquareInput freshSession).mainLine = "N".toList ∧
      (sessionAfter blankLineRef canalInput
        (sessionAfter blankLineRef timesSquareInput freshSession)).mainLine = []) := by
  decide

theorem findMainLine_unchanged_or (l : List Station) (sel m : QString) :
    findMainLine l sel m = m ∨ ∀ m', findMainLine l sel m' = findMainLine l sel m := by
  induction l with
  | nil => left; rfl
  | cons st rest ih =>
      by_cases h : st.name = sel
      · cases hl : st.lines with
        | nil => left; simp [findMainLine, h, hl]
        | cons a as => right; intro m'; simp [findMainLine, h, hl]
      · rcases ih with ih | ih
        · left; simpa [findMainLine, h] using ih
        · right; intro m'; simpa [findMainLine, h] using ih m'

/-- Claim C3, amended. A run that stops shows one of the five warnings, and after it
every field of the session has the value it had before the run, except the fields
that the steps performed before the stop have assigned:
at the empty-station stop only the selected station, which is empty;
at the empty-class stop the selected station, which holds the trimmed station input,
and the selected class text, which is empty;
at the bad-format stop the selected station and the selected class text, which hold the
trimmed inputs;
at the unreadable-time stop those two and the class start time, which is the null time;
at the unresolved-line stop those two, the class start time, which is the valid time
parsed from the class text, and the primary line, which is empty. -/
theorem stopped_run_changes_only_assigned_fields (ref : RefData) (inp : Input) (s : Session)
    (hstop : (shown ref inp s).isWarning = true) :
    (shown ref inp s = Outcome.warning "Please select a station.".toList ∨
      shown ref inp s = Outcome.warning "Please select a class.".toList ∨
      shown ref inp s = Outcome.warning "Invalid class time format.".toList ∨
      shown ref inp s = Outcome.warning "Could not read class start time.".toList ∨
      shown ref inp s = Outcome.warning "Could not determine train line.".toList) ∧
    (shown ref inp s = Outcome.warning "Please select a station.".toList →
      sessionAfter ref inp s = { s with selectedStation := [] }) ∧
    (shown ref inp s = Outcome.warning "Please select a class.".toList →
      sessionAfter ref inp s =
        { s with selectedStation := trimmed inp.stationText, selectedClassText := [] }) ∧
    (shown ref inp s = Outcome.warning "Invalid class time format.".toList →
      sessionAfter ref inp s =
        { s with selectedStation := trimmed inp.stationText
                 selectedClassText := trimmed inp.classText }) ∧
    (shown ref inp s = Outcome.warning "Could not read class start time.".toList →
      sessionAfter ref inp s =
        { s with selectedStation := trimmed inp.stationText
                 selectedClassText := trimmed inp.classText
                 classStartTime := QTime.null }) ∧
    (shown ref inp s = Outcome.warning "Could not determine train line.".toList →
      ∃ txt, startTimeText (trimmed inp.classText) = some txt ∧
        (parseStartTime txt).isValid = true ∧
        sessionAfter ref inp s =
          { s with selectedStation := trimmed inp.stationText
                   selectedClassText := trimmed inp.classText
                   classStartTime := parseStartTime txt
                   mainLine := [] }) := by
  unfold shown at hstop ⊢
  unfold sessionAfter
  rcases handler_cases ref inp s with h | h | h | h | h | h
  · obtain ⟨h1, e⟩ := h
    rw [e]
    refine ⟨Or.inl rfl, ?_, ?_, ?_, ?_, ?_⟩
    · intro _; rw [h1]
    all_goals intro hm; exact absurd (Outcome.warning.inj hm) (by decide)
  · obtain ⟨_, h2, e⟩ := h
    rw [e]
    refine ⟨Or.inr (Or.inl rfl), ?_, ?_, ?_, ?_, ?_⟩
    · intro hm; exact absurd (Outcome.warning.inj hm) (by decide)
    · intro _; rw [h2]
    all_goals intro hm; exact absurd (Outcome.warning.inj hm) (by decide)
  · obtain ⟨_, _, _, e⟩ := h
    rw [e]
    refine ⟨Or.inr (Or.inr (Or.inl rfl)), ?_, ?_, ?_, ?_, ?_⟩
    · intro hm; exact absurd (Outcome.warning.inj hm) (by decide)
    · intro hm; exact absurd (Outcome.warning.inj hm) (by decide)
    · intro _; rfl
    all_goals intro hm; exact absurd (Outcome.warning.inj hm) (by decide)
  · obtain ⟨txt, _, _, _, hinv, e⟩ := h
    rw [e]
    refine ⟨Or.inr (Or.inr (Or.inr (Or.inl rfl))), ?_, ?_, ?_, ?_, ?_⟩
    · intro hm; exact absurd (Outcome.warning.inj hm) (by decide)
    · intro hm; exact absurd (Outcome.warning.inj hm) (by decide)
    · intro hm; exact absurd (Outcome.warning.inj hm) (by decide)
    · intro _; rw [parseStartTime_null_of_invalid txt hinv]
    · intro hm; exact absurd (Outcome.warning.inj hm) (by decide)
  · obtain ⟨txt, _, _, htxt, hval, hml, e⟩ := h
    rw [e]
    refine ⟨Or.inr (Or.inr (Or.inr (Or.inr rfl))), ?_, ?_, ?_, ?_, ?_⟩
    · intro hm; exact absurd (Outcome.warning.inj hm) (by decide)
    · intro hm; exact absurd (Outcome.warning.inj hm) (by decide)
    · intro hm; exact absurd (Outcome.warning.inj hm) (by decide)
    · intro hm; exact absurd (Outcome.warning.inj hm) (by decide)
    · intro _
      refine ⟨txt, htxt, hval, ?_⟩
      unfold afterResolution
      rw [hml]
  · obtain ⟨txt, _, _, _, _, _, e⟩ := h
    rw [e, projectArrival_not_warning] at hstop
    exact absurd hstop (by decide)

/-- Three stopped runs of claim C3 after a successful run: without a separator in the
class text only the two selection fields are assigned; with an unreadable start time
the class start time becomes the null time as well; with a blank station field only
the selected station changes. -/
theorem stopped_run_changes_only_assigned_fields_witness :
    sessionAfter timesSquareRef noSeparatorInput sessionAfterFirstRun =
      { sessionAfterFirstRun with selectedStation := trimmed noSeparatorInput.stationText
                                  selectedClassText := trimmed noSeparatorInput.classText } ∧
    sessionAfter timesSquareRef unreadableTimeInput sessionAfterFirstRun =
      { sessionAfterFirstRun with selectedStation := trimmed unreadableTimeInput.stationText
                                  selectedClassText := trimmed unreadableTimeInput.classText
                                  classStartTime := QTime.null } ∧
    sessionAfter timesSquareRef blankStationInput sessionAfterFirstRun =
      { sessionAfterFirstRun with selectedStation := [] } ∧
    sessionAfterFirstRun.mainLine = "N".toList ∧
    sessionAfterFirstRun.arrivalTime = QTime.ofHM 10 0 :=
  ⟨(stopped_run_changes_only_assigned_fields timesSquareRef noSeparatorInput
      sessionAfterFirstRun (by decide)).2.2.2.1 (by decide),
    (stopped_run_changes_only_assigned_fields timesSquareRef unreadableTimeInput
      sessionAfterFirstRun (by decide)).2.2.2.2.1 (by decide),
    (stopped_run_changes_only_assigned_fields timesSquareRef blankStationInput
      sessionAfterFirstRun (by decide)).2.1 (by decide),
    by decide, by decide⟩

theorem findMainLine_of_find (l : List Station) (sel m : QString) (st : Station)
    (line : QString) (others : List QString)
    (hfind : l.find? (fun x => decide (x.name = sel)) = some st)
    (hlines : st.lines = line :: others) :
    findMainLine l sel m = toUpper (trimmed line) := by
  induction l with
  | nil => simp at hfind
  | cons x rest ih =>
      by_cases h : x.name = sel
      · have hx : x = st := by simpa [List.find?_cons, h] using hfind
        subst hx
        simp [findMainLine, h, hlines]
      · have hd : decide (x.name = sel) = false := by simpa using h
        rw [List.find?_cons, hd] at hfind
        simpa [findMainLine, h] using ih hfind

theorem selectionAccepted_spec (inp : Input) (h : selectionAccepted inp = true) :
    trimmed inp.stationText ≠ [] ∧ trimmed inp.classText ≠ [] ∧
    ∃ txt, startTimeText (trimmed inp.classText) = some txt ∧
      (parseStartTime txt).isValid = true := by
  unfold selectionAccepted at h
  simp only [Bool.and_eq_true, Bool.not_eq_true', List.isEmpty_eq_false] at h
  obtain ⟨⟨h1, h2⟩, h3⟩ := h
  refine ⟨h1, h2, ?_⟩
  cases ht : startTimeText (trimmed inp.classText) with
  | none => simp [ht] at h3
  | some txt => exact ⟨txt, rfl, by simpa [ht] using h3⟩

/-- After accepted steps 1 to 3 the handler stores the result of step 4 in the primary
line, and stops with the resolution warning exactly when that result is empty. -/
theorem handler_mainLine (ref : RefData) (inp : Input) (s : Session)
    (h : selectionAccepted inp = true) :
    (on_continueButton_clicked ref inp s).2.mainLine =
        findMainLine ref.stationList (trimmed inp.stationText) s.mainLine ∧
    ((on_continueButton_clicked ref inp s).1 =
        Outcome.warning "Could not determine train line.".toList ↔
      findMainLine ref.stationList (trimmed inp.stationText) s.mainLine = []) := by
  obtain ⟨h1, h2, txt, h3, h4⟩ := selectionAccepted_spec inp h
  rcases handler_cases ref inp s with c | c | c | c | c | c
  · exact absurd c.1 h1
  · exact absurd c.2.1 h2
  · rw [c.2.2.1] at h3; exact absurd h3 (by simp)
  · obtain ⟨t, _, _, ht, hv, _⟩ := c
    rw [ht] at h3
    cases h3
    rw [hv] at h4
    exact absurd h4 (by decide)
  · obtain ⟨t, _, _, _, _, hm, e⟩ := c
    rw [e]
    exact ⟨rfl, by simp [hm]⟩
  · obtain ⟨t, _, _, _, _, hm, e⟩ := c
    rw [e]
    refine ⟨(projectArrival_session ref inp _).2.2.2.2.1, ?_⟩
    constructor
    · intro hw
      have := projectArrival_not_warning ref inp (afterResolution ref inp s (parseStartTime t))
      rw [hw] at this
      exact absurd this (by decide)
    · intro hm'
      exact absurd hm' hm

/-- Claim C4, as stated, fails: the first line `" n "` of the selected station resolves
to `"N"`, which is not `" n "` converted to upper case. -/
theorem primary_line_is_trimmed_counterexample :
    (paddedLineRef.stationList.map Station.lines) = [[" n ".toList, "Q".toList]] ∧
    (sessionAfter paddedLineRef canalInput freshSession).mainLine = "N".toList ∧
    toUpper " n ".toList = " N ".toList ∧
    (sessionAfter paddedLineRef canalInput freshSession).mainLine ≠ toUpper " n ".toList := by
  decide

/-- Claim C4, amended. When steps 1 to 3 accept the input and the selected station is the
first station of its name in the station list and has at least one line, the primary
line is that first line with surrounding whitespace removed and converted to upper
case, whatever its letter case and whatever the primary line was before; so it is
the first line converted to upper case when that line has no surrounding
whitespace. -/
theorem primary_line_is_first_line_trimmed_upper (ref : RefData) (inp : Input) (s : Session)
    (st : Station) (line : QString) (others : List QString)
    (hacc : selectionAccepted inp = true)
    (hfind : ref.stationList.find? (fun x => decide (x.name = trimmed inp.stationText)) = some st)
    (hlines : st.lines = line :: others) :
    (sessionAfter ref inp s).mainLine = toUpper (trimmed line) ∧
    (trimmed line = line → (sessionAfter ref inp s).mainLine = toUpper line) := by
  unfold sessionAfter
  have h := (handler_mainLine ref inp s hacc).1
  rw [findMainLine_of_find _ _ _ st line others hfind hlines] at h
  exact ⟨h, fun ht => by rw [h, ht]⟩

/-- A run of claim C4: the first line `n` of Canal St resolves to `N`, replacing the
primary line `R` of the session. -/
theorem primary_line_is_first_line_trimmed_upper_witness :
    (sessionAfter lateNightRef canalInput { freshSession with mainLine := "R".toList }).mainLine =
      toUpper (trimmed "n".toList) ∧
    (sessionAfter lateNightRef canalInput { freshSession with mainLine := "R".toList }).mainLine =
      toUpper "n".toList ∧
    toUpper "n".toList = "N".toList :=
  ⟨(primary_line_is_first_line_trimmed_upper lateNightRef canalInput
      { freshSession with mainLine := "R".toList }
      { name := "Canal St".toList, lines := ["n".toList, "Q".toList] } "n".toList ["Q".toList]
      (by decide) (by decide) (by decide)).1,
    (primary_line_is_first_line_trimmed_upper lateNightRef canalInput
      { freshSession with mainLine := "R".toList }
      { name := "Canal St".toList, lines := ["n".toList, "Q".toList] } "n".toList ["Q".toList]
      (by decide) (by decide) (by decide)).2 (by decide),
    by decide⟩

/-! ## Alternative routes -/

theorem findStatus_eq_find (l : List ServiceAlert) (line d : QString) :
    findStatus l line d =
      match l.find? (fun a => decide (a.lineName = line)) with
      | some a => a.status
      | none => d := by
  induction l with
  | nil => simp [findStatus]
  | cons a rest ih =>
      by_cases h : a.lineName = line
      · simp [findStatus, List.find?_cons, h]
      · have hd : decide (a.lineName = line) = false := by simpa using h
        rw [List.find?_cons, hd]
        simp only [findStatus, h, if_false, ih]

theorem findStationLines_eq_find (l : List StationLines) (sel : QString) :
    findStationLines l sel =
      match l.find? (fun e => compareCaseInsensitiveEq e.stationName sel) with
      | some e => e.lines
      | none => [] := by
  induction l with
  | nil => simp [findStationLines]
  | cons e rest ih =>
      cases h : compareCaseInsensitiveEq e.stationName sel with
      | true => simp [findStationLines, List.find?_cons, h]
      | false =>
          rw [List.find?_cons, h]
          simp only [findStationLines, h, Bool.false_eq_true, if_false, ih]

theorem eraseMainLine_eq_erase (l : List QString) (m : QString) :
    eraseMainLine l m = l.erase m := by
  induction l with
  | nil => simp [eraseMainLine]
  | cons a rest ih =>
      by_cases h : a = m
      · simp [eraseMainLine, h]
      · simp [eraseMainLine, h, List.erase_cons_tail, ih]

theorem alternativeItem_injective (a b : QString) (h : alternativeItem a = alternativeItem b) :
    a = b := by
  unfold alternativeItem at h
  rw [List.append_assoc, List.append_assoc] at h
  exact List.append_cancel_right (List.append_cancel_left h)

theorem projectArrival_alternatives (ref : RefData) (inp : Input) (s : Session) (v : ResultView)
    (h : (projectArrival ref inp s).1 = Outcome.resultPage v) :
    v.alternatives =
      (alternativeRoutes ref s.selectedStation s.mainLine
        (findStatus ref.serviceAlertsList s.mainLine goodService)).1 := by
  unfold projectArrival at h
  simp only at h
  split at h
  · simp at h
  · split at h
    · simp only [Outcome.resultPage.injEq] at h
      rw [← h]
    · simp only [Outcome.resultPage.injEq] at h
      rw [← h]

/-- Claim C6, as stated, fails: with the N line delayed and the line list N, Q, N for the
station, the alternatives are the Q entry and an N entry, so an alternative names
the primary line N. -/
theorem alternative_names_primary_line_counterexample :
    (sessionAfter repeatedLineRef timesSquareInput freshSession).mainLine = "N".toList ∧
    specStatus repeatedLineRef.serviceAlertsList "N".toList = "DELAYS".toList ∧
    specStationLines repeatedLineRef.stationToLinesList "Times Sq-42 St".toList =
      ["N".toList, "Q".toList, "N".toList] ∧
    (∃ v, shown repeatedLineRef timesSquareInput freshSession = Outcome.resultPage v ∧
      v.alternatives = ["Take Q Train instead".toList, "Take N Train instead".toList] ∧
      v.alternatives ≠ (["N".toList, "Q".toList, "N".toList].filter
        (fun l => decide (l ≠ "N".toList))).map alternativeItem ∧
      alternativeItem "N".toList ∈ v.alternatives) := by
  refine ⟨by decide, by decide, by decide, _, rfl, by decide, by decide, by decide⟩

/-- Claim C6, amended. On the result page: when the status of the primary line is
`"GOOD SERVICE"`, in particular when the line has no alert entry, there are no
alternatives; otherwise the alternatives are the line list of the first
station-to-lines entry whose name equals the selected station case-insensitively
(no lines when there is no such entry), with the first element equal to the primary
line erased and the order kept, each rendered as `"Take <line> Train instead"`; so no
alternative names the primary line when the line list has no repeated line. -/
theorem alternatives_on_result_page (ref : RefData) (inp : Input) (s : Session) (v : ResultView)
    (hres : shown ref inp s = Outcome.resultPage v) :
    (specStatus ref.serviceAlertsList (sessionAfter ref inp s).mainLine = "GOOD SERVICE".toList →
      v.alternatives = []) ∧
    ((∀ a ∈ ref.serviceAlertsList, a.lineName ≠ (sessionAfter ref inp s).mainLine) →
      v.alternatives = []) ∧
    (specStatus ref.serviceAlertsList (sessionAfter ref inp s).mainLine ≠ "GOOD SERVICE".toList →
      v.alternatives =
        ((specStationLines ref.stationToLinesList (sessionAfter ref inp s).selectedStation).erase
          (sessionAfter ref inp s).mainLine).map
            (fun line => "Take ".toList ++ line ++ " Train instead".toList) ∧
      ((specStationLines ref.stationToLinesList (sessionAfter ref inp s).selectedStation).Nodup →
        ∀ item ∈ v.alternatives,
          item ≠ "Take ".toList ++ (sessionAfter ref inp s).mainLine ++ " Train instead".toList)) := by
  unfold shown at hres
  unfold sessionAfter
  have hw : (on_continueButton_clicked ref inp s).1.isWarning = false := by rw [hres]; rfl
  obtain ⟨txt, _, _, _, _, _, e⟩ := handler_passes ref inp s hw
  rw [e] at hres
  have hp := projectArrival_session ref inp (afterResolution ref inp s (parseStartTime txt))
  simp only at hp
  obtain ⟨_, hst, _, _, hml, _⟩ := hp
  have halt := projectArrival_alternatives ref inp _ v hres
  simp only [e]
  rw [hst, hml]
  have hstatus : ∀ line, findStatus ref.serviceAlertsList line goodService =
      specStatus ref.serviceAlertsList line := by
    intro line
    rw [findStatus_eq_find]
    rfl
  have hlines : ∀ sel, findStationLines ref.stationToLinesList sel =
      specStationLines ref.stationToLinesList sel := by
    intro sel
    rw [findStationLines_eq_find]
    rfl
  have hitem : (fun line => "Take ".toList ++ line ++ " Train instead".toList) = alternativeItem := rfl
  have hgood : "GOOD SERVICE".toList = goodService := rfl
  rw [hstatus] at halt
  rw [hitem, hgood]
  generalize (afterResolution ref inp s (parseStartTime txt)).mainLine = main at halt ⊢
  generalize (afterResolution ref inp s (parseStartTime txt)).selectedStation = sel at halt ⊢
  refine ⟨?_, ?_, ?_⟩
  · intro hs
    rw [halt, hs]
    simp [alternativeRoutes]
  · intro hno
    have hnone : specStatus ref.serviceAlertsList main = goodService := by
      unfold specStatus
      rw [List.find?_eq_none.2]
      · rfl
      · intro a ha
        simpa using hno a ha
    rw [halt, hnone]
    simp [alternativeRoutes]
  · intro hs
    have hv : v.alternatives =
        ((specStationLines ref.stationToLinesList sel).erase main).map alternativeItem := by
      rw [halt]
      simp only [alternativeRoutes, ne_eq, hs, not_false_eq_true, if_true,
        eraseMainLine_eq_erase, hlines]
    refine ⟨hv, ?_⟩
    intro hnd item hitem hEq
    rw [hv, List.mem_map] at hitem
    obtain ⟨l, hl, hli⟩ := hitem
    have : l = main := alternativeItem_injective _ _ (hli.trans hEq)
    rw [this] at hl
    exact (List.Nodup.not_mem_erase hnd) hl

/-- The delayed-line run of claim C6: the N line has delays, the station is served by
N, Q, R and W, and the alternatives are the Q, R and W entries; without an alert there
are no alternatives. -/
theorem alternatives_on_result_page_witness :
    shown delayedRef timesSquareInput freshSession = Outcome.resultPage delayedView ∧
    delayedView.alternatives =
      ((specStationLines delayedRef.stationToLinesList
          (sessionAfter delayedRef timesSquareInput freshSession).selectedStation).erase
        (sessionAfter delayedRef timesSquareInput freshSession).mainLine).map
          (fun line => "Take ".toList ++ line ++ " Train instead".toList) ∧
    delayedView.alternatives = ["Take Q Train instead".toList, "Take R Train instead".toList,
      "Take W Train instead".toList] ∧
    (∀ item ∈ delayedView.alternatives, item ≠ "Take ".toList ++
      (sessionAfter delayedRef timesSquareInput freshSession).mainLine ++ " Train instead".toList) :=
  ⟨by decide,
    ((alternatives_on_result_page delayedRef timesSquareInput freshSession delayedView
      (by decide)).2.2 (by decide)).1,
    rfl,
    ((alternatives_on_result_page delayedRef timesSquareInput freshSession delayedView
      (by decide)).2.2 (by decide)).2 (by decide)⟩

/-! ## Running the computation twice -/

theorem findMainLine_idem (l : List Station) (sel m : QString) :
    findMainLine l sel (findMainLine l sel m) = findMainLine l sel m := by
  rcases findMainLine_unchanged_or l sel m with h | h
  · rw [h, h]
  · exact h _

theorem findProfessor_idem (cs : List ClassInfo) (text p e : QString) :
    findProfessor cs text (p, (findProfessor cs text (p, e)).2) = findProfessor cs text (p, e) := by
  induction cs with
  | nil => simp [findProfessor]
  | cons c rest ih =>
      by_cases h : qContains text c.className = true
      · simp [findProfessor, h]
      · simpa [findProfessor, h] using ih

theorem projectArrival_idem (ref : RefData) (inp : Input) (s : Session) :
    projectArrival ref inp (projectArrival ref inp s).2 = projectArrival ref inp s := by
  unfold projectArrival
  simp only
  split
  · simp only [findProfessor_idem]
  · split <;> simp only [findProfessor_idem]

theorem afterResolution_projectArrival (ref : RefData) (inp : Input) (s : Session) (t : QTime) :
    afterResolution ref inp (projectArrival ref inp (afterResolution ref inp s t)).2 t =
      (projectArrival ref inp (afterResolution ref inp s t)).2 := by
  have hp := projectArrival_session ref inp (afterResolution ref inp s t)
  simp only at hp
  obtain ⟨_, hst, hct, hcl, hml, _⟩ := hp
  generalize (projectArrival ref inp (afterResolution ref inp s t)).2 = s1 at *
  have h1 : trimmed inp.stationText = s1.selectedStation := by rw [hst]; rfl
  have h2 : trimmed inp.classText = s1.selectedClassText := by rw [hct]; rfl
  have h3 : t = s1.classStartTime := by rw [hcl]; rfl
  have h4 : findMainLine ref.stationList (trimmed inp.stationText) s1.mainLine = s1.mainLine := by
    rw [hml]
    exact findMainLine_idem _ _ _
  unfold afterResolution
  rw [h4, h1, h2, h3]

/-- Claim C9. Running the lateness computation a second time with the same input and
reference data on the session left by the first run gives the same outcome and the
same session as the first run. -/
theorem second_run_same_as_first (ref : RefData) (inp : Input) (s : Session) :
    on_continueButton_clicked ref inp (on_continueButton_clicked ref inp s).2 =
      on_continueButton_clicked ref inp s := by
  rcases handler_cases ref inp s with h | h | h | h | h | h
  · obtain ⟨h1, e⟩ := h
    rw [e]
    rcases handler_cases ref inp { s with selectedStation := trimmed inp.stationText }
      with c | c | c | c | c | c
    · rw [c.2]
    · exact absurd h1 c.1
    · exact absurd h1 c.1
    · obtain ⟨_, c1, _⟩ := c; exact absurd h1 c1
    · obtain ⟨_, c1, _⟩ := c; exact absurd h1 c1
    · obtain ⟨_, c1, _⟩ := c; exact absurd h1 c1
  · obtain ⟨h1, h2, e⟩ := h
    rw [e]
    rcases handler_cases ref inp { s with selectedStation := trimmed inp.stationText
                                          selectedClassText := trimmed inp.classText }
      with c | c | c | c | c | c
    · exact absurd c.1 h1
    · rw [c.2.2]
    · exact absurd h2 c.2.1
    · obtain ⟨_, _, c2, _⟩ := c; exact absurd h2 c2
    · obtain ⟨_, _, c2, _⟩ := c; exact absurd h2 c2
    · obtain ⟨_, _, c2, _⟩ := c; exact absurd h2 c2
  · obtain ⟨h1, h2, h3, e⟩ := h
    rw [e]
    rcases handler_cases ref inp { s with selectedStation := trimmed inp.stationText
                                          selectedClassText := trimmed inp.classText }
      with c | c | c | c | c | c
    · exact absurd c.1 h1
    · exact absurd c.2.1 h2
    · rw [c.2.2.2]
    · obtain ⟨_, _, _, c3, _⟩ := c; rw [h3] at c3; exact absurd c3 (by simp)
    · obtain ⟨_, _, _, c3, _⟩ := c; rw [h3] at c3; exact absurd c3 (by simp)
    · obtain ⟨_, _, _, c3, _⟩ := c; rw [h3] at c3; exact absurd c3 (by simp)
  · obtain ⟨txt, h1, h2, h3, h4, e⟩ := h
    rw [e]
    rcases handler_cases ref inp { s with selectedStation := trimmed inp.stationText
                                          selectedClassText := trimmed inp.classText
                                          classStartTime := parseStartTime txt }
      with c | c | c | c | c | c
    · exact absurd c.1 h1
    · exact absurd c.2.1 h2
    · rw [h3] at c; exact absurd c.2.2.1 (by simp)
    · obtain ⟨t, _, _, c3, _, e2⟩ := c
      rw [h3] at c3
      cases c3
      rw [e2]
    · obtain ⟨t, _, _, c3, c4, _⟩ := c
      rw [h3] at c3
      cases c3
      rw [h4] at c4
      exact absurd c4 (by decide)
    · obtain ⟨t, _, _, c3, c4, _⟩ := c
      rw [h3] at c3
      cases c3
      rw [h4] at c4
      exact absurd c4 (by decide)
  · obtain ⟨txt, h1, h2, h3, h4, h5, e⟩ := h
    rw [e]
    have hm : findMainLine ref.stationList (trimmed inp.stationText)
        (afterResolution ref inp s (parseStartTime txt)).mainLine = [] := by
      show findMainLine ref.stationList (trimmed inp.stationText)
        (findMainLine ref.stationList (trimmed inp.stationText) s.mainLine) = []
      rw [findMainLine_idem, h5]
    rcases handler_cases ref inp (afterResolution ref inp s (parseStartTime txt))
      with c | c | c | c | c | c
    · exact absurd c.1 h1
    · exact absurd c.2.1 h2
    · rw [h3] at c; exact absurd c.2.2.1 (by simp)
    · obtain ⟨t, _, _, c3, c4, _⟩ := c
      rw [h3] at c3
      cases c3
      rw [h4] at c4
      exact absurd c4 (by decide)
    · obtain ⟨t, _, _, c3, _, _, e2⟩ := c
      rw [h3] at c3
      cases c3
      rw [e2]
      congr 1
      unfold afterResolution
      simp only [findMainLine_idem]
    · obtain ⟨t, _, _, _, _, c5, _⟩ := c
      exact absurd hm c5
  · obtain ⟨txt, h1, h2, h3, h4, h5, e⟩ := h
    rw [e]
    have hml := (projectArrival_session ref inp
      (afterResolution ref inp s (parseStartTime txt))).2.2.2.2.1
    rcases handler_cases ref inp (projectArrival ref inp
        (afterResolution ref inp s (parseStartTime txt))).2 with c | c | c | c | c | c
    · exact absurd c.1 h1
    · exact absurd c.2.1 h2
    · rw [h3] at c; exact absurd c.2.2.1 (by simp)
    · obtain ⟨t, _, _, c3, c4, _⟩ := c
      rw [h3] at c3
      cases c3
      rw [h4] at c4
      exact absurd c4 (by decide)
    · obtain ⟨t, _, _, _, _, c5, _⟩ := c
      rw [hml] at c5
      exact absurd (by
        have := findMainLine_idem ref.stationList (trimmed inp.stationText) s.mainLine
        exact this ▸ c5) h5
    · obtain ⟨t, _, _, c3, _, _, e2⟩ := c
      rw [h3] at c3
      cases c3
      rw [e2, afterResolution_projectArrival, projectArrival_idem]

/-! ## Parsing the class start time out of the display text -/

/-- Claim C7, the failing runs. For the class record named `Physics – Lab` with the time
`9:05 AM - 10:10 AM`, the text built by `loadClassesForStudent` has the stated shape,
yet the piece taken as the time range is `Lab`, the run stops with the warning that
the start time cannot be read, and the stored class start time is the null time, not
09:05. For a class record with an empty name and the same time, trimming removes the
blank that opens the separator and the run stops with the format warning. -/
theorem class_name_forming_separator_defeats_parse :
    (labClassText = "Physics – Lab".toList ++ classSep ++ clockText false 9 5 false ++
        " - ".toList ++ clockText false 10 10 false ∧
      (qSplit classSep (trimmed labClassText)).getD 1 [] = "Lab".toList ∧
      shown timesSquareRef labInput { freshSession with currentStudent := labStudent } =
        Outcome.warning "Could not read class start time.".toList ∧
      (sessionAfter timesSquareRef labInput
        { freshSession with currentStudent := labStudent }).classStartTime = QTime.null ∧
      clockTime 9 5 false = QTime.ofHM 9 5) ∧
    (namelessClassText = [] ++ classSep ++ clockText false 9 5 false ++
        " - ".toList ++ clockText false 10 10 false ∧
      shown timesSquareRef namelessInput { freshSession with currentStudent := namelessStudent } =
        Outcome.warning "Invalid class time format.".toList ∧
      (sessionAfter timesSquareRef namelessInput
        { freshSession with currentStudent := namelessStudent }).classStartTime ≠
          clockTime 9 5 false) := by
  decide

theorem dropWhile_append_stop (p : Char → Bool) (a b : QString) (x : Char) (hx : p x = false) :
    (a ++ x :: b).dropWhile p = a.dropWhile p ++ x :: b := by
  induction a with
  | nil => simp [List.dropWhile, hx]
  | cons c a ih =>
      cases hc : p c with
      | true => simp [List.dropWhile, hc, ih]
      | false => simp [List.dropWhile, hc]

theorem dropTrailing_append_stop (p : Char → Bool) (a b : QString) (x : Char) (hx : p x = false) :
    dropTrailing p (a ++ x :: b) = a ++ x :: dropTrailing p b := by
  unfold dropTrailing
  rw [List.reverse_append, List.reverse_cons, List.append_assoc, List.singleton_append,
    dropWhile_append_stop p _ _ x hx]
  simp

theorem dropWhile_cons_stop (p : Char → Bool) (x : Char) (b : QString) (hx : p x = false) :
    (x :: b).dropWhile p = x :: b := by
  simp [List.dropWhile, hx]

theorem dropWhile_append_of_mem (p : Char → Bool) (a b : QString)
    (h : ∃ c ∈ a, p c = false) :
    ∃ x rest, a.dropWhile p = x :: rest ∧ p x = false ∧
      (a ++ b).dropWhile p = x :: rest ++ b ∧ ∀ y ∈ x :: rest, y ∈ a := by
  induction a with
  | nil => obtain ⟨c, hc, _⟩ := h; simp at hc
  | cons c a ih =>
      cases hc : p c with
      | false =>
          exact ⟨c, a, by simp [List.dropWhile, hc], hc, by simp [List.dropWhile, hc],
            fun y hy => hy⟩
      | true =>
          have h' : ∃ d ∈ a, p d = false := by
            obtain ⟨d, hd, hpd⟩ := h
            rcases List.mem_cons.1 hd with e | e
            · rw [e, hc] at hpd; exact absurd hpd (by decide)
            · exact ⟨d, e, hpd⟩
          obtain ⟨x, rest, h1, h2, h3, h4⟩ := ih h'
          exact ⟨x, rest, by simp [List.dropWhile, hc, h1], h2,
            by simp [List.dropWhile, hc, h3], fun y hy => List.mem_cons_of_mem _ (h4 y hy)⟩

theorem splitAux_head (b cur : QString) :
    ∃ more tl, splitAux classSep 0 b cur = (cur.reverse ++ more) :: tl := by
  induction b generalizing cur with
  | nil => exact ⟨[], [], by simp [splitAux]⟩
  | cons c b ih =>
      by_cases h : startsWith (c :: b) classSep = true
      · exact ⟨[], splitAux classSep (classSep.length - 1) b [], by simp [splitAux, h]⟩
      · obtain ⟨more, tl, e⟩ := ih (c :: cur)
        exact ⟨c :: more, tl, by simp [splitAux, h, e]⟩

theorem startsWith_classSep_second (c d : Char) (s : QString) (hd : d ≠ '–') :
    startsWith (c :: d :: s) classSep = false := by
  have hd' : (d == '–') = false := by simpa using hd
  simp [startsWith, classSep, hd']

theorem startsWith_append_of_le (x y p : QString) (h : p.length ≤ x.length) :
    startsWith (x ++ y) p = startsWith x p := by
  induction x generalizing p with
  | nil =>
      cases p with
      | nil => cases y <;> rfl
      | cons d p => simp at h
  | cons c x ih =>
      cases p with
      | nil => rfl
      | cons d p =>
          have hp : p.length ≤ x.length := by simpa using h
          simp [startsWith, ih p hp]

theorem splitAux_first_piece (a rest cur : QString)
    (ha : qContains (a ++ [' ', '–']) classSep = false) :
    splitAux classSep 0 (a ++ classSep ++ rest) cur =
      (cur.reverse ++ a) :: splitAux classSep 0 rest [] := by
  induction a generalizing cur with
  | nil => simp [splitAux, startsWith, classSep]
  | cons c a ih =>
      have hboth : startsWith (c :: (a ++ [' ', '–'])) classSep = false ∧
          qContains (a ++ [' ', '–']) classSep = false := by
        have h := ha
        simp only [List.cons_append, qContains, Bool.or_eq_false_iff] at h
        exact h
      have hsplit : c :: a ++ classSep ++ rest = (c :: (a ++ [' ', '–'])) ++ (' ' :: rest) := by
        simp [classSep]
      have hsecond : startsWith ((c :: (a ++ [' ', '–'])) ++ (' ' :: rest)) classSep = false := by
        rw [startsWith_append_of_le _ _ _ (by simp [classSep])]
        exact hboth.1
      have hrest : a ++ classSep ++ rest = (a ++ [' ', '–']) ++ (' ' :: rest) := by
        simp [classSep]
      have := ih (c :: cur) hboth.2
      rw [hsplit]
      simp only [List.cons_append] at hsecond ⊢
      simp only [splitAux, hsecond, Bool.false_eq_true, if_false]
      rw [← hrest]
      simpa using this

theorem splitAux_second_piece (a b cur : QString) (x : Char) (ha : '–' ∉ a)
    (hx1 : x ≠ ' ') (hx2 : x ≠ '–') :
    ∃ more tl, splitAux classSep 0 (a ++ x :: b) cur = (cur.reverse ++ a ++ x :: more) :: tl := by
  induction a generalizing cur with
  | nil =>
      have hs : startsWith (x :: b) classSep = false := by
        have : (x == ' ') = false := by simpa using hx1
        cases b <;> simp [startsWith, classSep, this]
      obtain ⟨more, tl, e⟩ := splitAux_head b (x :: cur)
      exact ⟨more, tl, by simp [splitAux, hs, e]⟩
  | cons c a ih =>
      have hsecond : startsWith (c :: (a ++ x :: b)) classSep = false := by
        cases a with
        | nil => exact startsWith_classSep_second c x _ hx2
        | cons d a' => exact startsWith_classSep_second c d _ (fun e => ha (by simp [e]))
      have ha' : '–' ∉ a := fun e => ha (List.mem_cons_of_mem _ e)
      obtain ⟨more, tl, e⟩ := ih (c :: cur) ha'
      refine ⟨more, tl, ?_⟩
      simp only [List.cons_append]
      simp only [splitAux, hsecond, Bool.false_eq_true, if_false]
      simpa using e

theorem reSplitAux_first_piece (a b cur : QString) (ha : '-' ∉ a) :
    ∀ fuel, a.length < fuel →
      ∃ tl, reSplitAux fuel (a ++ '-' :: b) cur =
        ((a.reverse ++ cur).dropWhile reIsSpace).reverse :: tl := by
  induction a generalizing cur with
  | nil =>
      intro fuel hf
      cases fuel with
      | zero => simp at hf
      | succ n => exact ⟨reSplitAux n (b.dropWhile reIsSpace) [], by simp [reSplitAux]⟩
  | cons c a ih =>
      intro fuel hf
      cases fuel with
      | zero => simp at hf
      | succ n =>
          have hc : (c == '-') = false := by
            have : c ≠ '-' := fun e => ha (by simp [e])
            simpa using this
          have ha' : '-' ∉ a := fun e => ha (List.mem_cons_of_mem _ e)
          obtain ⟨tl, e⟩ := ih (c :: cur) ha' n (by simpa using hf)
          exact ⟨tl, by simp [reSplitAux, hc, e]⟩

theorem digit_facts : ∀ d, d < 10 →
    digitVal (Char.ofNat (48 + d)) = some d ∧ qIsSpace (Char.ofNat (48 + d)) = false ∧
    reIsSpace (Char.ofNat (48 + d)) = false ∧
    Char.ofNat (48 + d) ≠ '–' ∧ Char.ofNat (48 + d) ≠ '-' := by
  decide

theorem digitVal_digit (n : Nat) : digitVal (Char.ofNat (48 + n % 10)) = some (n % 10) :=
  (digit_facts (n % 10) (Nat.mod_lt _ (by decide))).1

theorem qIsSpace_digit (n : Nat) : qIsSpace (Char.ofNat (48 + n % 10)) = false :=
  (digit_facts (n % 10) (Nat.mod_lt _ (by decide))).2.1

theorem digit_ne_endash (n : Nat) : Char.ofNat (48 + n % 10) ≠ '–' :=
  (digit_facts (n % 10) (Nat.mod_lt _ (by decide))).2.2.2.1

theorem digit_ne_hyphen (n : Nat) : Char.ofNat (48 + n % 10) ≠ '-' :=
  (digit_facts (n % 10) (Nat.mod_lt _ (by decide))).2.2.2.2

/-- The shape of a clock text: hour digits, then the fixed fields. -/
theorem clockText_shape (padded : Bool) (h m : Nat) (pm : Bool) :
    ∃ a p, (clockText padded h m pm =
        [Char.ofNat (48 + h / 10 % 10), Char.ofNat (48 + h % 10), ':',
          Char.ofNat (48 + m / 10 % 10), Char.ofNat (48 + m % 10), ' ', p, 'M'] ∨
      (h < 10 ∧ clockText padded h m pm =
        [Char.ofNat (48 + h % 10), ':',
          Char.ofNat (48 + m / 10 % 10), Char.ofNat (48 + m % 10), ' ', p, 'M'])) ∧
      (p = 'A' ∨ p = 'P') ∧ a = p ∧ parseAmPm [p, 'M'] = some pm := by
  refine ⟨if pm then 'P' else 'A', if pm then 'P' else 'A', ?_, ?_, rfl, ?_⟩
  · by_cases hp : (padded || decide (10 ≤ h)) = true
    · left
      cases pm <;> simp [clockText, twoDigits, hp]
    · right
      have hh : h < 10 := by
        simp only [Bool.or_eq_true, decide_eq_true_eq, not_or] at hp
        omega
      refine ⟨hh, ?_⟩
      cases pm <;> simp [clockText, twoDigits, hp]
  · cases pm <;> simp
  · cases pm <;> decide

theorem clockText_chars (padded : Bool) (h m : Nat) (pm : Bool) :
    ∀ c ∈ clockText padded h m pm, c ≠ '–' ∧ c ≠ '-' := by
  obtain ⟨_, p, hshape, hp, _, _⟩ := clockText_shape padded h m pm
  intro c hc
  have hpc : p ≠ '–' ∧ p ≠ '-' := by rcases hp with e | e <;> subst e <;> decide
  rcases hshape with e | ⟨_, e⟩
  · rw [e] at hc
    simp only [List.mem_cons, List.mem_singleton, List.not_mem_nil, or_false] at hc
    rcases hc with e | e | e | e | e | e | e | e <;> subst e
    · exact ⟨digit_ne_endash _, digit_ne_hyphen _⟩
    · exact ⟨digit_ne_endash _, digit_ne_hyphen _⟩
    · decide
    · exact ⟨digit_ne_endash _, digit_ne_hyphen _⟩
    · exact ⟨digit_ne_endash _, digit_ne_hyphen _⟩
    · decide
    · exact hpc
    · decide
  · rw [e] at hc
    simp only [List.mem_cons, List.mem_singleton, List.not_mem_nil, or_false] at hc
    rcases hc with e | e | e | e | e | e | e <;> subst e
    · exact ⟨digit_ne_endash _, digit_ne_hyphen _⟩
    · decide
    · exact ⟨digit_ne_endash _, digit_ne_hyphen _⟩
    · exact ⟨digit_ne_endash _, digit_ne_hyphen _⟩
    · decide
    · exact hpc
    · decide

theorem clockText_ends (padded : Bool) (h m : Nat) (pm : Bool) :
    ∃ t0 mid, clockText padded h m pm = t0 :: mid ++ ['M'] ∧ qIsSpace t0 = false := by
  obtain ⟨_, p, hshape, _, _, _⟩ := clockText_shape padded h m pm
  rcases hshape with e | ⟨_, e⟩
  · exact ⟨Char.ofNat (48 + h / 10 % 10), [Char.ofNat (48 + h % 10), ':',
      Char.ofNat (48 + m / 10 % 10), Char.ofNat (48 + m % 10), ' ', p], by rw [e]; rfl,
      qIsSpace_digit _⟩
  · exact ⟨Char.ofNat (48 + h % 10), [':',
      Char.ofNat (48 + m / 10 % 10), Char.ofNat (48 + m % 10), ' ', p], by rw [e]; rfl,
      qIsSpace_digit _⟩

theorem parseMinutesAmPm_clock (h m : Nat) (p : Char) (pm : Bool)
    (hh : 1 ≤ h ∧ h ≤ 12) (hm : m ≤ 59) (hp : parseAmPm [p, 'M'] = some pm) :
    parseMinutesAmPm h [':', Char.ofNat (48 + m / 10 % 10), Char.ofNat (48 + m % 10), ' ', p, 'M'] =
      clockTime h m pm := by
  have hmm : m / 10 % 10 * 10 + m % 10 = m := by omega
  simp only [parseMinutesAmPm, digitVal_digit, hp, hmm]
  rw [if_pos ⟨hh.1, hh.2, hm⟩]
  rfl

theorem parseStartTime_clockText (padded : Bool) (h m : Nat) (pm : Bool)
    (hh : 1 ≤ h ∧ h ≤ 12) (hm : m ≤ 59) :
    parseStartTime (clockText padded h m pm) = clockTime h m pm := by
  have hv : (clockTime h m pm).isValid = true := by
    unfold clockTime
    apply ofHM_isValid
    · cases pm <;> simp <;> omega
    · omega
  obtain ⟨_, p, hshape, _, _, hp⟩ := clockText_shape padded h m pm
  have hcolon : digitVal ':' = none := by decide
  have key : fromString_h_mm_AP (clockText padded h m pm) = clockTime h m pm := by
    rcases hshape with e | ⟨hlt, e⟩
    · have hhh : h / 10 % 10 * 10 + h % 10 = h := by omega
      rw [e]
      simp only [fromString_h_mm_AP, digitVal_digit, hhh]
      exact parseMinutesAmPm_clock h m p pm hh hm hp
    · have hhh : h % 10 = h := by omega
      rw [e]
      simp only [fromString_h_mm_AP, digitVal_digit, hcolon]
      rw [hhh]
      exact parseMinutesAmPm_clock h m p pm hh hm hp
  unfold parseStartTime
  simp only [key, hv, Bool.not_true, Bool.false_eq_true, if_false]

/-- Step 3 on a display text `className – startTime - endTime`: when the class name holds
a character that is not whitespace and, read from its first such character and
followed by the separator, does not form the separator before its own end, the text
cut out is the clock text. -/
theorem startTimeText_display (className endTime : QString) (padded : Bool) (h m : Nat)
    (pm : Bool) (hname : ∃ c ∈ className, qIsSpace c = false)
    (hsep : qContains (className.dropWhile qIsSpace ++ [' ', '–']) classSep = false) :
    startTimeText (trimmed (className ++ classSep ++ clockText padded h m pm ++
      " - ".toList ++ endTime)) = some (clockText padded h m pm) := by
  obtain ⟨t0, mid, hT, ht0⟩ := clockText_ends padded h m pm
  have hchars := clockText_chars padded h m pm
  generalize clockText padded h m pm = T at hT hchars ⊢
  have hTdash : '–' ∉ T ++ [' '] := by
    intro hmem
    rcases List.mem_append.1 hmem with e | e
    · exact (hchars _ e).1 rfl
    · simp at e
  have hThyphen : '-' ∉ T ++ [' '] := by
    intro hmem
    rcases List.mem_append.1 hmem with e | e
    · exact (hchars _ e).2 rfl
    · simp at e
  have hhy : qIsSpace '-' = false := by decide
  have hM : qIsSpace 'M' = false := by decide
  -- the trimmed display text
  obtain ⟨x, rest, hxr, _, hdrop, _⟩ := dropWhile_append_of_mem qIsSpace className
    (classSep ++ T ++ " - ".toList ++ endTime) hname
  have hcn : qContains ((x :: rest) ++ [' ', '–']) classSep = false := by
    rw [← hxr]; exact hsep
  have htrim : trimmed (className ++ classSep ++ T ++ " - ".toList ++ endTime) =
      (x :: rest) ++ classSep ++ ((T ++ [' ']) ++ '-' :: dropTrailing qIsSpace (' ' :: endTime)) := by
    unfold trimmed
    have e1 : className ++ classSep ++ T ++ " - ".toList ++ endTime =
        className ++ (classSep ++ T ++ " - ".toList ++ endTime) := by simp
    rw [e1, hdrop]
    have e2 : x :: rest ++ (classSep ++ T ++ " - ".toList ++ endTime) =
        ((x :: rest) ++ classSep ++ T ++ [' ']) ++ '-' :: (' ' :: endTime) := by simp
    rw [e2, dropTrailing_append_stop _ _ _ _ hhy]
    simp
  -- the pieces of the first split
  obtain ⟨more, tl, hsecond⟩ := splitAux_second_piece (T ++ [' '])
    (dropTrailing qIsSpace (' ' :: endTime)) [] '-' hTdash (by decide) (by decide)
  have hparts : qSplit classSep ((x :: rest) ++ classSep ++
      ((T ++ [' ']) ++ '-' :: dropTrailing qIsSpace (' ' :: endTime))) =
      (x :: rest) :: ((T ++ [' ']) ++ '-' :: more) :: tl := by
    unfold qSplit
    rw [splitAux_first_piece _ _ _ hcn, hsecond]
    simp
  -- the trimmed time range
  have hfull : trimmed ((T ++ [' ']) ++ '-' :: more) =
      (T ++ [' ']) ++ '-' :: dropTrailing qIsSpace more := by
    unfold trimmed
    have e3 : (T ++ [' ']) ++ '-' :: more = t0 :: (mid ++ ['M'] ++ [' '] ++ '-' :: more) := by
      rw [hT]; simp
    rw [e3, dropWhile_cons_stop _ _ _ ht0, ← e3, dropTrailing_append_stop _ _ _ _ hhy]
  -- the first piece of the second split
  obtain ⟨tl2, hre⟩ := reSplitAux_first_piece (T ++ [' ']) (dropTrailing qIsSpace more) []
    hThyphen (((T ++ [' ']) ++ '-' :: dropTrailing qIsSpace more).length + 1)
    (by simp)
  have hpiece : (((T ++ [' ']).reverse ++ []).dropWhile reIsSpace).reverse = T := by
    rw [hT]
    simp [List.dropWhile, reIsSpace]
  have htrimT : trimmed T = T := by
    unfold trimmed
    rw [hT, List.cons_append, dropWhile_cons_stop _ _ _ ht0]
    have e4 : t0 :: (mid ++ ['M']) = (t0 :: mid) ++ 'M' :: [] := by simp
    rw [e4, dropTrailing_append_stop _ _ _ _ hM]
    simp [dropTrailing]
  rw [htrim]
  unfold startTimeText
  simp only [hparts, List.length_cons]
  rw [if_neg (by omega)]
  simp only [List.getD_cons_succ, List.getD_cons_zero, hfull]
  unfold reSplitDash
  rw [hre, hpiece]
  simp [htrimT]

theorem handler_classStartTime (ref : RefData) (inp : Input) (s : Session) (txt : QString)
    (hstation : trimmed inp.stationText ≠ [])
    (htxt : startTimeText (trimmed inp.classText) = some txt) :
    (on_continueButton_clicked ref inp s).2.classStartTime = parseStartTime txt := by
  rcases handler_cases ref inp s with c | c | c | c | c | c
  · exact absurd c.1 hstation
  · have hnone : startTimeText [] = none := by decide
    rw [c.2.1, hnone] at htxt
    exact absurd htxt (by simp)
  · rw [c.2.2.1] at htxt
    exact absurd htxt (by simp)
  · obtain ⟨t, _, _, ht, _, e⟩ := c
    rw [ht] at htxt
    cases htxt
    rw [e]
  · obtain ⟨t, _, _, ht, _, _, e⟩ := c
    rw [ht] at htxt
    cases htxt
    rw [e]
    rfl
  · obtain ⟨t, _, _, ht, _, _, e⟩ := c
    rw [ht] at htxt
    cases htxt
    rw [e]
    exact (projectArrival_session ref inp _).2.2.2.1

/-- The class names that step 3 handles. For every class display text
`className – startTime - endTime` in which the class name holds a character that is
not whitespace and does not form the separator before its own end, and `startTime` is
a 12-hour clock time (hour 1 to 12 with or without a leading zero, minute 00 to 59,
`AM` or `PM`): step 3 cuts out `startTime` and parses it as exactly that time of day,
and every run with a non-blank station stores that time as the class start time.
Such a text is what `loadClassesForStudent` builds from a class record with that name
and the time range `startTime - endTime`. -/
theorem class_start_parsed_unless_name_forms_separator (ref : RefData) (inp : Input)
    (s : Session) (className endTime : QString) (padded : Bool) (h m : Nat) (pm : Bool)
    (hh : 1 ≤ h ∧ h ≤ 12) (hm : m ≤ 59)
    (hname : ∃ c ∈ className, qIsSpace c = false)
    (hsep : qContains (className.dropWhile qIsSpace ++ [' ', '–']) classSep = false)
    (htext : inp.classText =
      className ++ classSep ++ clockText padded h m pm ++ " - ".toList ++ endTime)
    (hstation : trimmed inp.stationText ≠ []) :
    (startTimeText (trimmed inp.classText)).map parseStartTime = some (clockTime h m pm) ∧
    (sessionAfter ref inp s).classStartTime = clockTime h m pm ∧
    (∀ (student : Student) (c : ClassInfo), c ∈ student.classes → c.className = className →
      c.classTime = clockText padded h m pm ++ " - ".toList ++ endTime →
      inp.classText ∈ loadClassesForStudent student) := by
  unfold sessionAfter
  have hcut := startTimeText_display className endTime padded h m pm hname hsep
  rw [← htext] at hcut
  refine ⟨?_, ?_, ?_⟩
  · rw [hcut]
    simp [parseStartTime_clockText padded h m pm hh hm]
  · rw [handler_classStartTime ref inp s _ hstation hcut,
      parseStartTime_clockText padded h m pm hh hm]
  · intro student c hc hn ht
    unfold loadClassesForStudent
    rw [List.mem_map]
    refine ⟨c, hc, ?_⟩
    rw [htext, hn, ht]
    simp

/-- Runs with class names that step 3 handles: `9:05 AM` is parsed as 09:05, `09:05 PM`
as 21:05, also for a class name that holds an en dash without forming the separator. -/
theorem class_start_parsed_examples :
    (sessionAfter timesSquareRef morningInput freshSession).classStartTime = QTime.ofHM 9 5 ∧
    (sessionAfter timesSquareRef eveningInput freshSession).classStartTime = QTime.ofHM 21 5 ∧
    (sessionAfter timesSquareRef
      { timesSquareInput with classText := "Math–Lab – 9:05 AM - 10:10 AM".toList }
      freshSession).classStartTime = QTime.ofHM 9 5 :=
  ⟨(class_start_parsed_unless_name_forms_separator timesSquareRef morningInput freshSession
      "Math".toList "10:10 AM".toList false 9 5 false (by decide) (by decide)
      ⟨'M', by decide, by decide⟩ (by decide) (by decide) (by decide)).2.1,
    (class_start_parsed_unless_name_forms_separator timesSquareRef eveningInput freshSession
      "Math".toList "10:10 PM".toList true 9 5 true (by decide) (by decide)
      ⟨'M', by decide, by decide⟩ (by decide) (by decide) (by decide)).2.1,
    (class_start_parsed_unless_name_forms_separator timesSquareRef
      { timesSquareInput with classText := "Math–Lab – 9:05 AM - 10:10 AM".toList } freshSession
      "Math–Lab".toList "10:10 AM".toList false 9 5 false (by decide) (by decide)
      ⟨'M', by decide, by decide⟩ (by decide) (by decide) (by decide)).2.1⟩

end CommuteOptimizer
